import Mathlib

/-!
Shallow embedding of the idle-transaction lifecycle controller of
`packages/apm/src/integrations/tracing.ts` (the `Tracing` integration).

The static fields of the `Tracing` class are gathered into one explicit state
record, and every public operation becomes a pure state-passing function that
follows the source line by line.  Timers (`setTimeout` / `clearTimeout`) are
modelled as a list of pending timers, each carrying the numeric id assigned by
`setTimeout`, the remaining delay, and the callback it would run; time advances
by subtracting from the remaining delays, and a timer whose delay has elapsed
may fire, running its callback on the current state.  JS numbers are modelled
as rationals.

The `Span`/`Hub` collaborators (`packages/apm/src/span.ts` and the hub) are not
part of the provided source slice; the few entry points the controller uses
(`hub.startSpan`, `scope.setSpan`, `span.finish`, `span.setData`,
`span.setHttpStatus`, `span.setStatus`) are modelled from the spec as an
append-only effect log plus a fresh-id counter, as noted on each definition.
-/

/-- An entry of the effect log: every call the controller makes into the
span/hub collaborator is recorded here, in order. -/
inductive Effect where
  | startSpan (sid : Nat) (parent : Option Nat) (isTransaction : Bool)
  | finishSpan (sid : Nat) (useLastSpanEnd : Bool)
  | dataSet (sid : Nat) (key : String) (value : String)
  | httpStatusSet (sid : Nat) (value : String)
  | statusSet (sid : Nat) (value : String)
deriving DecidableEq

/-- Callback of a pending `setTimeout` scheduled by the controller:
the debounced `finishIdleTransaction` call scheduled by `popActivity`, the
bootstrap `popActivity(id)` scheduled by `startIdleTransaction`, or the
auto-pop `popActivity(index, \x7bautoPop, status\x7d)` scheduled by
`pushActivity`. -/
inductive TimerTask where
  | finishIdle
  | bootstrapPop (activityId : Nat)
  | autoPop (activityId : Nat)
deriving DecidableEq

/-- A pending timer: the id `setTimeout` returned, the remaining delay in
milliseconds, and the callback. -/
structure Timer where
  tid : Nat
  remaining : ℤ
  task : TimerTask
deriving DecidableEq

/-- The fields of `TracingOptions` the controller logic reads.
`tracesSampleRate` is `none` when `typeof options.tracesSampleRate` is not
`'number'` (the merged-defaults object can still hold a non-number when the
caller explicitly passed one). -/
structure TracingOptions where
  idleTimeout : ℤ
  maxTransactionDuration : ℤ
  tracesSampleRate : Option ℚ
  discardBackgroundSpans : Bool
deriving DecidableEq

/-- State of the hub collaborator: a fresh-id counter for spans started via
`hub.startSpan`, and the span bound on the ambient scope via
`scope.setSpan`. -/
structure HubState where
  nextSpanId : Nat
  scopeSpan : Option Nat
deriving DecidableEq

/-- An `Activity` registry entry: `\x7bname: string, span?: Span\x7d`. -/
structure Activity where
  name : String
  span : Option Nat
deriving DecidableEq

/-- A span context argument; its payload is opaque to the controller, which
only branches on its presence. -/
structure SpanContext where
  op : String
deriving DecidableEq

/-- The static state of the `Tracing` class, plus the modelled collaborator
state: `enabled` is `Tracing._enabled`, `hasGetter` records whether
`Tracing._getCurrentHub` has been set (by `setupOnce`), `hubOk` records
whether calling it yields a truthy hub, `activeTransaction` is
`Tracing._activeTransaction` (as a span id), `currentIndex` is
`Tracing._currentIndex`, `activities` is `Tracing._activities` as an
association list, `debounce` is `Tracing._debounce` (the id of the last
scheduled finish timer), and `timers`/`nextTimerId` model the pending
`setTimeout` callbacks. -/
structure TracingState where
  enabled : Option Bool
  options : TracingOptions
  hasGetter : Bool
  hubOk : Bool
  hub : HubState
  activeTransaction : Option Nat
  currentIndex : Nat
  activities : List (Nat × Activity)
  debounce : Nat
  nextTimerId : Nat
  timers : List Timer
  events : List Effect
deriving DecidableEq

namespace Tracing

/-- Lookup in the activity registry (`Tracing._activities[id]`). -/
def regLookup : List (Nat × Activity) → Nat → Option Activity
  | [], _ => none
  | (k, a) :: rest, i => if k = i then some a else regLookup rest i

/-- Deletion from the activity registry (`delete Tracing._activities[id]`). -/
def regRemove : List (Nat × Activity) → Nat → List (Nat × Activity)
  | [], _ => []
  | (k, a) :: rest, i => if k = i then regRemove rest i else (k, a) :: regRemove rest i

/-- Assignment `Tracing._activities[i] = a`: replaces the entry when the key
is already present, appends otherwise. -/
def regInsert (reg : List (Nat × Activity)) (i : Nat) (a : Activity) : List (Nat × Activity) :=
  if (regLookup reg i).isSome then
    reg.map (fun p => if p.1 = i then (i, a) else p)
  else
    reg ++ [(i, a)]

/-- Model of `clearTimeout(n)` : the pending timer with id `n`, if any, is
removed; ids never assigned (such as the initial `_debounce = 0`) make it a
no-op, as in JS. -/
def clearTimeoutState (s : TracingState) (n : Nat) : TracingState :=
  { s with timers := s.timers.filter (fun t => t.tid ≠ n) }

/-- Model of `setTimeout(cb, delay)` : returns the fresh timer id and the
state with the new pending timer appended. -/
def scheduleTimer (s : TracingState) (task : TimerTask) (delay : ℤ) : Nat × TracingState :=
  (s.nextTimerId,
    { s with
      nextTimerId := s.nextTimerId + 1,
      timers := s.timers ++ [{ tid := s.nextTimerId, remaining := delay, task := task }] })

/-- Transcription of `Tracing._isEnabled()`, with the `Math.random()` draw `u`
passed in explicitly: returns the cached boolean if present; returns `false`
without caching when `tracesSampleRate` is not a number; otherwise caches and
returns `Math.random() > rate ? false : true`, i.e. `u ≤ r`. -/
def isEnabledCompute (s : TracingState) (u : ℚ) : Bool × TracingState :=
  match s.enabled with
  | some b => (b, s)
  | none =>
    match s.options.tracesSampleRate with
    | none => (false, s)
    | some r =>
      if u > r then (false, { s with enabled := some false })
      else (true, { s with enabled := some true })

/-- Modelled from the spec: `hub.startSpan(ctx, forTransaction)` of the hub
collaborator (not part of the source slice) begins a span with a fresh id and
parent linkage taken from the ambient scope, recording the call in the effect
log, and returns the new span. -/
def hubStartSpan (s : TracingState) (forTransaction : Bool) : Nat × TracingState :=
  (s.hub.nextSpanId,
    { s with
      hub := { s.hub with nextSpanId := s.hub.nextSpanId + 1 },
      events := s.events ++ [Effect.startSpan s.hub.nextSpanId s.hub.scopeSpan forTransaction] })

/-- Transcription of `Tracing.finishIdleTransaction()`: when a transaction is
active, calls `active.finish(true)` (use the timestamp of the last finished
span); the collaborator call is modelled from the spec as appending a
`finishSpan` effect.  Note that the source does not reset
`Tracing._activeTransaction`. -/
def finishIdleTransaction (s : TracingState) : TracingState :=
  match s.activeTransaction with
  | some sid => { s with events := s.events ++ [Effect.finishSpan sid true] }
  | none => s

/-- Transcription of `Tracing.setTransactionStatus(status)`. -/
def setTransactionStatus (s : TracingState) (status : String) : TracingState :=
  match s.activeTransaction with
  | some sid => { s with events := s.events ++ [Effect.statusSet sid status] }
  | none => s

/-- Effects that `popActivity` applies to an activity span: `setData` for each
key of `spanData` in order, additionally `setHttpStatus` for the key
`status_code` and `setStatus` for the key `status`, then `span.finish()`. -/
def popSpanEffects (sid : Nat) (spanData : Option (List (String × String))) : List Effect :=
  (match spanData with
   | some kvs =>
     kvs.flatMap (fun kv =>
       [Effect.dataSet sid kv.1 kv.2]
         ++ (if kv.1 = "status_code" then [Effect.httpStatusSet sid kv.2] else [])
         ++ (if kv.1 = "status" then [Effect.statusSet sid kv.2] else []))
   | none => []) ++ [Effect.finishSpan sid false]

/-- First phase of `popActivity` (the lines guarded by `if (activity)`): if
the activity is present, apply `spanData` to its span (if any), finish the
span and delete the registry entry; otherwise do nothing. -/
def popRemovePhase (s : TracingState) (id : Nat)
    (spanData : Option (List (String × String))) : TracingState :=
  match regLookup s.activities id with
  | some a =>
    match a.span with
    | some sid =>
      { s with
        events := s.events ++ popSpanEffects sid spanData,
        activities := regRemove s.activities id }
    | none => { s with activities := regRemove s.activities id }
  | none => s

/-- Second phase of `popActivity`: read the registry size,
`clearTimeout(Tracing._debounce)`, and when the registry is empty and a
transaction is active, schedule the debounced `finishIdleTransaction` after
`options.idleTimeout` ms, storing the fresh timer id in `_debounce`. -/
def popReschedule (s : TracingState) : TracingState :=
  if s.activities.length = 0 ∧ s.activeTransaction.isSome = true then
    { (scheduleTimer (clearTimeoutState s s.debounce) TimerTask.finishIdle
        s.options.idleTimeout).2 with
      debounce := (scheduleTimer (clearTimeoutState s s.debounce) TimerTask.finishIdle
        s.options.idleTimeout).1 }
  else clearTimeoutState s s.debounce

/-- Transcription of `Tracing.popActivity(id, spanData)`: early return when
tracing is disabled or `id` is `0` (the `!id` check), then the two phases
above. -/
def popActivity (s : TracingState) (u : ℚ) (id : Nat)
    (spanData : Option (List (String × String))) : TracingState :=
  if (isEnabledCompute s u).1 = false ∨ id = 0 then (isEnabledCompute s u).2
  else popReschedule (popRemovePhase (isEnabledCompute s u).2 id spanData)

/-- Storage phase of `pushActivity`: store the new activity at
`_currentIndex`, with a child span started via the hub when `spanContext` is
given and the hub collaborator is available, and span-less otherwise; when
`spanContext` is given and `_getCurrentHub` is set but the hub is falsy, the
source stores nothing. -/
def pushStore (s : TracingState) (name : String) (ctx : Option SpanContext) : TracingState :=
  if ctx.isSome ∧ s.hasGetter = true then
    if s.hubOk = true then
      match hubStartSpan s false with
      | (sid, s1) => { s1 with activities := regInsert s1.activities s1.currentIndex ⟨name, some sid⟩ }
    else s
  else
    { s with activities := regInsert s.activities s.currentIndex ⟨name, none⟩ }

/-- Auto-pop phase of `pushActivity`: when `options.autoPopAfter` is a
number, schedule the timer popping this `_currentIndex` with the
deadline-exceeded payload after that many milliseconds. -/
def pushWithAutoPop (s : TracingState) (autoPopAfter : Option ℤ) : TracingState :=
  match autoPopAfter with
  | some d => (scheduleTimer s (TimerTask.autoPop s.currentIndex) d).2
  | none => s

/-- Return phase of `pushActivity`: `return Tracing._currentIndex++`. -/
def pushFinish (s : TracingState) : Nat × TracingState :=
  (s.currentIndex, { s with currentIndex := s.currentIndex + 1 })

/-- Transcription of `Tracing.pushActivity(name, spanContext, options)`:
returns `0` untouched when tracing is disabled or no transaction is active;
otherwise `clearTimeout(Tracing._debounce)`, run the storage phase, the
auto-pop phase, and return `_currentIndex++`. -/
def pushActivity (s : TracingState) (u : ℚ) (name : String) (ctx : Option SpanContext)
    (autoPopAfter : Option ℤ) : Nat × TracingState :=
  if (isEnabledCompute s u).1 = false then (0, (isEnabledCompute s u).2)
  else if (isEnabledCompute s u).2.activeTransaction = none then (0, (isEnabledCompute s u).2)
  else
    pushFinish (pushWithAutoPop
      (pushStore (clearTimeoutState (isEnabledCompute s u).2 (isEnabledCompute s u).2.debounce)
        name ctx)
      autoPopAfter)

/-- Binding phase of `startIdleTransaction`: start the transaction span via
`hub.startSpan(..., true)`, set `Tracing._activeTransaction`, and bind the
span on the scope via `getScope().setSpan(span)`. -/
def startBind (s : TracingState) : Nat × TracingState :=
  match hubStartSpan s true with
  | (sid, s2) =>
    (sid, { s2 with
            activeTransaction := some sid,
            hub := { s2.hub with scopeSpan := some sid } })

/-- Bootstrap phase of `startIdleTransaction`: push the internal activity
`idleTransactionStarted` and schedule its pop via
`setTimeout(() => popActivity(id), (options.idleTimeout) || 100)`, so with a
delay of `100` when the configured idle timeout is `0` (falsy). -/
def startBootstrap (s : TracingState) (u : ℚ) : TracingState :=
  (scheduleTimer (pushActivity s u "idleTransactionStarted" none none).2
    (TimerTask.bootstrapPop (pushActivity s u "idleTransactionStarted" none none).1)
    (if (pushActivity s u "idleTransactionStarted" none none).2.options.idleTimeout = 0 then 100
     else (pushActivity s u "idleTransactionStarted" none none).2.options.idleTimeout)).2

/-- Transcription of `Tracing.startIdleTransaction(name, spanContext)`:
return `none` when disabled; call `finishIdleTransaction()` first (before the
hub checks); return `none` when `_getCurrentHub` is unset or the hub is
falsy; otherwise bind a fresh transaction span and run the bootstrap
phase. -/
def startIdleTransaction (s : TracingState) (u : ℚ) (_name : String)
    (_ctx : Option SpanContext) : Option Nat × TracingState :=
  if (isEnabledCompute s u).1 = false then (none, (isEnabledCompute s u).2)
  else if (finishIdleTransaction (isEnabledCompute s u).2).hasGetter = false then
    (none, finishIdleTransaction (isEnabledCompute s u).2)
  else if (finishIdleTransaction (isEnabledCompute s u).2).hubOk = false then
    (none, finishIdleTransaction (isEnabledCompute s u).2)
  else
    (some (startBind (finishIdleTransaction (isEnabledCompute s u).2)).1,
      startBootstrap (startBind (finishIdleTransaction (isEnabledCompute s u).2)).2 u)

/-- Transcription of the `visibilitychange` listener body registered by
`setupOnce` when `discardBackgroundSpans` is set: when the document became
hidden and a transaction is active, drop the transaction reference and the
whole registry, without finishing and without touching the timers. -/
def discardOnHidden (s : TracingState) (hidden : Bool) : TracingState :=
  if hidden = true ∧ s.activeTransaction.isSome = true then
    { s with activeTransaction := none, activities := [] }
  else s

/-- Advance wall-clock time by `d` milliseconds: every pending timer gets `d`
closer to firing. -/
def advanceTime (s : TracingState) (d : ℤ) : TracingState :=
  { s with timers := s.timers.map (fun t => { t with remaining := t.remaining - d }) }

/-- Run the callback of a fired timer (the fired timer has already been
removed from the pending list). -/
def runTask (s : TracingState) (u : ℚ) : TimerTask → TracingState
  | TimerTask.finishIdle => finishIdleTransaction s
  | TimerTask.bootstrapPop id => popActivity s u id none
  | TimerTask.autoPop id =>
    popActivity s u id (some [("autoPop", "true"), ("status", "deadline_exceeded")])

/-- A pending timer fires: it is removed from the pending list and its
callback runs on the resulting state. -/
def fireTimer (s : TracingState) (u : ℚ) (t : Timer) : TracingState :=
  runTask (clearTimeoutState s t.tid) u t.task

/-- A transaction event as seen by the global event processor: its `type`,
`timestamp` and `start_timestamp` fields (absent fields are `none`). -/
structure SentryEvent where
  evType : Option String
  timestamp : Option ℤ
  start_timestamp : Option ℤ
deriving DecidableEq

/-- Transcription of the global event processor installed by `setupOnce`:
when the integration is installed on the hub and tracing is enabled, compute
`isOutdatedTransaction = event.timestamp && event.start_timestamp &&
(timestamp - start_timestamp > maxTransactionDuration || timestamp -
start_timestamp < 0)` (JS truthiness: a `0` timestamp is falsy) and drop the
event when `maxTransactionDuration !== 0 && event.type === 'transaction' &&
isOutdatedTransaction`. -/
def maxDurationProcessor (selfPresent enabled : Bool) (maxDur : ℤ)
    (e : SentryEvent) : Option SentryEvent :=
  if selfPresent = false then some e
  else if enabled = true then
    let isOutdated : Bool :=
      match e.timestamp, e.start_timestamp with
      | some ts, some st =>
        (if ts = 0 then false else true)
          && (if st = 0 then false else true)
          && (decide (ts - st > maxDur) || decide (ts - st < 0))
      | _, _ => false
    if (decide (maxDur ≠ 0) && (e.evType == some "transaction") && isOutdated) = true then
      none
    else some e
  else some e

/-- The state at page load: nothing cached, no transaction, index counter at
`1`, empty registry, `_debounce = 0`, no pending timers.  `hubOk` (whether the
hub the getter would return is truthy) and the constructed options are
parameters of the run. -/
def initState (hubOk : Bool) (o : TracingOptions) : TracingState :=
  { enabled := none
    options := o
    hasGetter := false
    hubOk := hubOk
    hub := { nextSpanId := 1, scopeSpan := none }
    activeTransaction := none
    currentIndex := 1
    activities := []
    debounce := 0
    nextTimerId := 1
    timers := []
    events := [] }

/-- One observable step of the system: a controller entry point invoked by an
adapter, a reconfiguration, `setupOnce` wiring the hub getter, the
visibility-change signal (available when the discard policy is on), time
passing, or a ripe timer firing. -/
inductive Step : TracingState → TracingState → Prop
  | configure (s : TracingState) (o : TracingOptions) :
      Step s { s with options := o }
  | setup (s : TracingState) :
      Step s { s with hasGetter := true }
  | start (s : TracingState) (u : ℚ) (name : String) (ctx : Option SpanContext) :
      Step s (startIdleTransaction s u name ctx).2
  | push (s : TracingState) (u : ℚ) (name : String) (ctx : Option SpanContext)
      (apa : Option ℤ) :
      Step s (pushActivity s u name ctx apa).2
  | pop (s : TracingState) (u : ℚ) (id : Nat) (sd : Option (List (String × String))) :
      Step s (popActivity s u id sd)
  | finish (s : TracingState) :
      Step s (finishIdleTransaction s)
  | setStatus (s : TracingState) (st : String) :
      Step s (setTransactionStatus s st)
  | hidden (s : TracingState) (h : s.options.discardBackgroundSpans = true) :
      Step s (discardOnHidden s true)
  | advance (s : TracingState) (d : ℤ) :
      Step s (advanceTime s d)
  | fire (s : TracingState) (u : ℚ) (t : Timer) (ht : t ∈ s.timers)
      (hr : t.remaining ≤ 0) :
      Step s (fireTimer s u t)

/-- A state is reachable when some run of the system from page load produces
it. -/
def Reachable (s : TracingState) : Prop :=
  ∃ hk o, Relation.ReflTransGen Step (initState hk o) s

/-- The controller-visible part of the state: everything except the cached
enablement decision (which belongs to the gate and is specified to be
memoized). -/
def ctrlView (s : TracingState) :=
  (s.options, s.hasGetter, s.hubOk, s.hub, s.activeTransaction, s.currentIndex,
    s.activities, s.debounce, s.nextTimerId, s.timers, s.events)

/-- The pending finish-debounce timers among a timer list. -/
def finishTimers (l : List Timer) : List Timer :=
  l.filter (fun t => t.task = TimerTask.finishIdle)

section RegistryLemmas

theorem regLookup_eq_none_of_bound {reg : List (Nat × Activity)} {i : Nat}
    (h : ∀ p ∈ reg, p.1 < i) : regLookup reg i = none := by
  induction reg with
  | nil => rfl
  | cons p rest ih =>
    simp only [regLookup]
    have hp := h p (by simp)
    rw [if_neg (by omega)]
    exact ih (fun q hq => h q (by simp [hq]))

theorem regInsert_of_fresh {reg : List (Nat × Activity)} {i : Nat} {a : Activity}
    (h : regLookup reg i = none) : regInsert reg i a = reg ++ [(i, a)] := by
  simp [regInsert, h]

theorem regLookup_append_self (reg : List (Nat × Activity)) (i : Nat) (a : Activity)
    (h : regLookup reg i = none) : regLookup (reg ++ [(i, a)]) i = some a := by
  induction reg with
  | nil => simp [regLookup]
  | cons p rest ih =>
    simp only [regLookup] at h ⊢
    by_cases hpi : p.1 = i
    · simp [hpi] at h
    · simp only [List.cons_append, regLookup, hpi, if_false]
      exact ih (by simpa [hpi] using h)

theorem mem_regRemove {reg : List (Nat × Activity)} {i : Nat} {p : Nat × Activity}
    (h : p ∈ regRemove reg i) : p ∈ reg := by
  induction reg with
  | nil => simp [regRemove] at h
  | cons q rest ih =>
    simp only [regRemove] at h
    by_cases hqi : q.1 = i
    · simp only [hqi, if_true] at h
      exact List.mem_cons_of_mem _ (ih h)
    · simp only [hqi, if_false, List.mem_cons] at h
      rcases h with h | h
      · exact h ▸ List.mem_cons_self _ _
      · exact List.mem_cons_of_mem _ (ih h)

theorem regRemove_nil (i : Nat) : regRemove [] i = [] := rfl

theorem regRemove_ne_nil {reg : List (Nat × Activity)} {i : Nat}
    (h : regRemove reg i ≠ []) : reg ≠ [] := by
  intro hnil; subst hnil; exact h (regRemove_nil i)

theorem mem_regInsert {reg : List (Nat × Activity)} {i : Nat} {a : Activity}
    {p : Nat × Activity} (h : p ∈ regInsert reg i a) : p ∈ reg ∨ p.1 = i := by
  unfold regInsert at h
  by_cases hl : (regLookup reg i).isSome
  · rw [if_pos hl] at h
    rcases List.mem_map.mp h with ⟨q, hq, hqe⟩
    by_cases hqi : q.1 = i
    · right; rw [if_pos hqi] at hqe; rw [← hqe]
    · left; rw [if_neg hqi] at hqe; exact hqe ▸ hq
  · rw [if_neg hl] at h
    rcases List.mem_append.mp h with h | h
    · exact Or.inl h
    · right; simp only [List.mem_singleton] at h; rw [h]

theorem regInsert_ne_nil (reg : List (Nat × Activity)) (i : Nat) (a : Activity) :
    regInsert reg i a ≠ [] := by
  unfold regInsert
  by_cases hl : (regLookup reg i).isSome
  · rw [if_pos hl]
    intro hnil
    have := congrArg List.length hnil
    simp only [List.length_map, List.length_nil] at this
    rw [List.eq_nil_of_length_eq_zero this] at hl
    simp [regLookup] at hl
  · rw [if_neg hl]
    intro hnil
    have := congrArg List.length hnil
    simp at this

end RegistryLemmas

section TimerLemmas

theorem tidBound_append {l : List Timer} {n : Nat} (h : ∀ t ∈ l, t.tid < n)
    (d : ℤ) (task : TimerTask) :
    ∀ t ∈ l ++ [{ tid := n, remaining := d, task := task }], t.tid < n + 1 := by
  intro t ht
  rcases List.mem_append.mp ht with ht | ht
  · have := h t ht; omega
  · rw [List.mem_singleton] at ht
    subst ht
    exact Nat.lt_succ_self n

theorem tidNodup_append {l : List Timer} {n : Nat} (h : ∀ t ∈ l, t.tid < n)
    (hn : (l.map Timer.tid).Nodup) (d : ℤ) (task : TimerTask) :
    ((l ++ [({ tid := n, remaining := d, task := task } : Timer)]).map Timer.tid).Nodup := by
  rw [List.map_append]
  rw [List.nodup_append]
  refine ⟨hn, by simp, ?_⟩
  simp only [List.map_cons, List.map_nil, List.disjoint_singleton]
  intro hm
  rcases List.mem_map.mp hm with ⟨t, ht, he⟩
  have := h t ht
  omega

theorem finishTimers_eq_nil {l : List Timer}
    (h : ∀ t ∈ l, t.task ≠ TimerTask.finishIdle) : finishTimers l = [] := by
  unfold finishTimers
  rw [List.filter_eq_nil_iff]
  intro t ht
  simp only [decide_eq_true_eq]
  exact h t ht

end TimerLemmas

/-- Structural invariant maintained by every reachable state of the
controller. -/
structure Inv (s : TracingState) : Prop where
  txHub : s.activeTransaction.isSome = true → s.hasGetter = true ∧ s.hubOk = true
  scopeTx : ∀ i, s.activeTransaction = some i → s.hub.scopeSpan = some i
  idxPos : 1 ≤ s.currentIndex
  keyBound : ∀ p ∈ s.activities, p.1 < s.currentIndex
  regTx : s.activities ≠ [] → s.activeTransaction.isSome = true
  spanBound : ∀ i, s.activeTransaction = some i → i < s.hub.nextSpanId
  tidBound : ∀ t ∈ s.timers, t.tid < s.nextTimerId
  tidNodup : (s.timers.map Timer.tid).Nodup
  finishDeb : ∀ t ∈ s.timers, t.task = TimerTask.finishIdle → t.tid = s.debounce

theorem inv_initState (hk : Bool) (o : TracingOptions) : Inv (initState hk o) := by
  constructor <;> simp [initState]

section InvPreservation

variable {s : TracingState}

theorem inv_enabledSet (h : Inv s) (e : Option Bool) : Inv { s with enabled := e } :=
  ⟨h.txHub, h.scopeTx, h.idxPos, h.keyBound, h.regTx, h.spanBound, h.tidBound,
    h.tidNodup, h.finishDeb⟩

theorem inv_optionsSet (h : Inv s) (o : TracingOptions) : Inv { s with options := o } :=
  ⟨h.txHub, h.scopeTx, h.idxPos, h.keyBound, h.regTx, h.spanBound, h.tidBound,
    h.tidNodup, h.finishDeb⟩

theorem inv_eventsSet (h : Inv s) (es : List Effect) : Inv { s with events := es } :=
  ⟨h.txHub, h.scopeTx, h.idxPos, h.keyBound, h.regTx, h.spanBound, h.tidBound,
    h.tidNodup, h.finishDeb⟩

theorem isEnabledCompute_snd (s : TracingState) (u : ℚ) :
    (isEnabledCompute s u).2 = s ∨
      (∃ b, (isEnabledCompute s u).2 = { s with enabled := some b }) := by
  rcases hs : s.enabled with _ | b
  · rcases hr : s.options.tracesSampleRate with _ | r
    · left; simp [isEnabledCompute, hs, hr]
    · by_cases hu : u > r
      · right; exact ⟨false, by simp [isEnabledCompute, hs, hr, hu]⟩
      · right; exact ⟨true, by simp [isEnabledCompute, hs, hr, hu]⟩
  · left; simp [isEnabledCompute, hs]

theorem inv_isEnabledCompute (h : Inv s) (u : ℚ) : Inv (isEnabledCompute s u).2 := by
  rcases isEnabledCompute_snd s u with he | ⟨b, he⟩
  · rw [he]; exact h
  · rw [he]; exact inv_enabledSet h _

theorem inv_clearTimeoutState (h : Inv s) (n : Nat) : Inv (clearTimeoutState s n) := by
  refine ⟨h.txHub, h.scopeTx, h.idxPos, h.keyBound, h.regTx, h.spanBound, ?_, ?_, ?_⟩
  · intro t ht
    exact h.tidBound t (List.mem_filter.mp ht).1
  · exact h.tidNodup.sublist ((List.filter_sublist _).map _)
  · intro t ht
    exact h.finishDeb t (List.mem_filter.mp ht).1

theorem inv_finishIdleTransaction (h : Inv s) : Inv (finishIdleTransaction s) := by
  unfold finishIdleTransaction
  split
  · exact inv_eventsSet h _
  · exact h

theorem inv_setTransactionStatus (h : Inv s) (st : String) :
    Inv (setTransactionStatus s st) := by
  unfold setTransactionStatus
  split
  · exact inv_eventsSet h _
  · exact h

theorem inv_discardOnHidden (h : Inv s) (hid : Bool) : Inv (discardOnHidden s hid) := by
  unfold discardOnHidden
  split
  · exact ⟨by simp, by simp, h.idxPos, by simp, by simp, by simp, h.tidBound,
      h.tidNodup, h.finishDeb⟩
  · exact h

theorem inv_advanceTime (h : Inv s) (d : ℤ) : Inv (advanceTime s d) := by
  refine ⟨h.txHub, h.scopeTx, h.idxPos, h.keyBound, h.regTx, h.spanBound, ?_, ?_, ?_⟩
  · intro t ht
    rcases List.mem_map.mp ht with ⟨t2, ht2, he⟩
    have := h.tidBound t2 ht2
    rw [← he]
    exact this
  · have hmm : (advanceTime s d).timers.map Timer.tid = s.timers.map Timer.tid := by
      simp only [advanceTime, List.map_map]
      rfl
    rw [hmm]; exact h.tidNodup
  · intro t ht
    rcases List.mem_map.mp ht with ⟨t2, ht2, he⟩
    rw [← he]
    exact h.finishDeb t2 ht2

theorem inv_popRemovePhase (h : Inv s) (id : Nat)
    (sd : Option (List (String × String))) : Inv (popRemovePhase s id sd) := by
  unfold popRemovePhase
  split
  · split
    · exact ⟨h.txHub, h.scopeTx, h.idxPos,
        fun p hp => h.keyBound p (mem_regRemove hp),
        fun hne => h.regTx (regRemove_ne_nil hne),
        h.spanBound, h.tidBound, h.tidNodup, h.finishDeb⟩
    · exact ⟨h.txHub, h.scopeTx, h.idxPos,
        fun p hp => h.keyBound p (mem_regRemove hp),
        fun hne => h.regTx (regRemove_ne_nil hne),
        h.spanBound, h.tidBound, h.tidNodup, h.finishDeb⟩
  · exact h

theorem finishTimers_clearDebounce (h : Inv s) :
    finishTimers (clearTimeoutState s s.debounce).timers = [] := by
  apply finishTimers_eq_nil
  intro t ht htask
  have hm := List.mem_filter.mp ht
  have := h.finishDeb t hm.1 htask
  have hne := hm.2
  simp only [decide_eq_true_eq] at hne
  exact hne this

theorem inv_popReschedule (h : Inv s) : Inv (popReschedule s) := by
  unfold popReschedule
  split
  · have h2 := inv_clearTimeoutState h s.debounce
    have hnf := finishTimers_clearDebounce h
    refine ⟨h2.txHub, h2.scopeTx, h2.idxPos, h2.keyBound, h2.regTx, h2.spanBound, ?_, ?_, ?_⟩
    · exact tidBound_append h2.tidBound _ _
    · exact tidNodup_append h2.tidBound h2.tidNodup _ _
    · intro t ht htk
      rcases List.mem_append.mp ht with ht | ht
      · exfalso
        have hmem : t ∈ finishTimers (clearTimeoutState s s.debounce).timers := by
          unfold finishTimers
          rw [List.mem_filter]
          exact ⟨ht, by simp [htk]⟩
        rw [hnf] at hmem
        exact absurd hmem (List.not_mem_nil t)
      · rw [List.mem_singleton] at ht
        subst ht
        rfl
  · exact inv_clearTimeoutState h s.debounce

theorem inv_popActivity (h : Inv s) (u : ℚ) (id : Nat)
    (sd : Option (List (String × String))) : Inv (popActivity s u id sd) := by
  unfold popActivity
  have h2 := inv_isEnabledCompute h u
  split
  · exact h2
  · exact inv_popReschedule (inv_popRemovePhase h2 id sd)

theorem pushStore_activeTransaction (s : TracingState) (n : String) (c : Option SpanContext) :
    (pushStore s n c).activeTransaction = s.activeTransaction := by
  unfold pushStore
  split <;> (try split) <;> rfl

theorem pushStore_currentIndex (s : TracingState) (n : String) (c : Option SpanContext) :
    (pushStore s n c).currentIndex = s.currentIndex := by
  unfold pushStore
  split <;> (try split) <;> rfl

theorem pushStore_timers (s : TracingState) (n : String) (c : Option SpanContext) :
    (pushStore s n c).timers = s.timers := by
  unfold pushStore
  split <;> (try split) <;> rfl

theorem pushStore_nextTimerId (s : TracingState) (n : String) (c : Option SpanContext) :
    (pushStore s n c).nextTimerId = s.nextTimerId := by
  unfold pushStore
  split <;> (try split) <;> rfl

theorem pushStore_debounce (s : TracingState) (n : String) (c : Option SpanContext) :
    (pushStore s n c).debounce = s.debounce := by
  unfold pushStore
  split <;> (try split) <;> rfl

theorem pushStore_hasGetter (s : TracingState) (n : String) (c : Option SpanContext) :
    (pushStore s n c).hasGetter = s.hasGetter := by
  unfold pushStore
  split <;> (try split) <;> rfl

theorem pushStore_hubOk (s : TracingState) (n : String) (c : Option SpanContext) :
    (pushStore s n c).hubOk = s.hubOk := by
  unfold pushStore
  split <;> (try split) <;> rfl

theorem pushStore_scopeSpan (s : TracingState) (n : String) (c : Option SpanContext) :
    (pushStore s n c).hub.scopeSpan = s.hub.scopeSpan := by
  unfold pushStore
  split <;> (try split) <;> rfl

theorem pushStore_options (s : TracingState) (n : String) (c : Option SpanContext) :
    (pushStore s n c).options = s.options := by
  unfold pushStore
  split <;> (try split) <;> rfl

theorem pushStore_nextSpanId_le (s : TracingState) (n : String) (c : Option SpanContext) :
    s.hub.nextSpanId ≤ (pushStore s n c).hub.nextSpanId := by
  unfold pushStore
  split
  · split
    · simp [hubStartSpan]
    · exact le_refl _
  · exact le_refl _

theorem mem_pushStore_activities {s : TracingState} {n : String} {c : Option SpanContext}
    {p : Nat × Activity} (hp : p ∈ (pushStore s n c).activities) :
    p ∈ s.activities ∨ p.1 = s.currentIndex := by
  unfold pushStore at hp
  split at hp
  · split at hp
    · exact mem_regInsert hp
    · exact Or.inl hp
  · exact mem_regInsert hp

theorem pushWithAutoPop_currentIndex (s : TracingState) (a : Option ℤ) :
    (pushWithAutoPop s a).currentIndex = s.currentIndex := by
  unfold pushWithAutoPop
  split <;> rfl

theorem pushWithAutoPop_activities (s : TracingState) (a : Option ℤ) :
    (pushWithAutoPop s a).activities = s.activities := by
  unfold pushWithAutoPop
  split <;> rfl

theorem pushWithAutoPop_activeTransaction (s : TracingState) (a : Option ℤ) :
    (pushWithAutoPop s a).activeTransaction = s.activeTransaction := by
  unfold pushWithAutoPop
  split <;> rfl

end InvPreservation

/-- Weakening of `Inv` holding at the intermediate states of `pushActivity`,
after the new activity is stored at `_currentIndex` but before the
`_currentIndex++` of the return: keys are only bounded by `≤`. -/
structure PreInv (s : TracingState) : Prop where
  txHub : s.activeTransaction.isSome = true → s.hasGetter = true ∧ s.hubOk = true
  scopeTx : ∀ i, s.activeTransaction = some i → s.hub.scopeSpan = some i
  idxPos : 1 ≤ s.currentIndex
  keyLe : ∀ p ∈ s.activities, p.1 ≤ s.currentIndex
  txSome : s.activeTransaction.isSome = true
  spanBound : ∀ i, s.activeTransaction = some i → i < s.hub.nextSpanId
  tidBound : ∀ t ∈ s.timers, t.tid < s.nextTimerId
  tidNodup : (s.timers.map Timer.tid).Nodup
  finishDeb : ∀ t ∈ s.timers, t.task = TimerTask.finishIdle → t.tid = s.debounce

section InvPreservationPush

variable {s : TracingState}

theorem preinv_pushStore (h : Inv s) (htx : s.activeTransaction.isSome = true)
    (n : String) (c : Option SpanContext) : PreInv (pushStore s n c) := by
  refine ⟨?_, ?_, ?_, ?_, ?_, ?_, ?_, ?_, ?_⟩
  · rw [pushStore_activeTransaction, pushStore_hasGetter, pushStore_hubOk]
    exact h.txHub
  · rw [pushStore_activeTransaction, pushStore_scopeSpan]
    exact h.scopeTx
  · rw [pushStore_currentIndex]; exact h.idxPos
  · intro p hp
    rw [pushStore_currentIndex]
    rcases mem_pushStore_activities hp with hm | hm
    · exact le_of_lt (h.keyBound p hm)
    · exact le_of_eq hm
  · rw [pushStore_activeTransaction]; exact htx
  · rw [pushStore_activeTransaction]
    intro i hi
    exact lt_of_lt_of_le (h.spanBound i hi) (pushStore_nextSpanId_le s n c)
  · rw [pushStore_timers, pushStore_nextTimerId]; exact h.tidBound
  · rw [pushStore_timers]; exact h.tidNodup
  · rw [pushStore_timers, pushStore_debounce]; exact h.finishDeb

theorem preinv_pushWithAutoPop (h : PreInv s) (a : Option ℤ) :
    PreInv (pushWithAutoPop s a) := by
  unfold pushWithAutoPop
  split
  · refine ⟨h.txHub, h.scopeTx, h.idxPos, h.keyLe, h.txSome, h.spanBound, ?_, ?_, ?_⟩
    · exact tidBound_append h.tidBound _ _
    · exact tidNodup_append h.tidBound h.tidNodup _ _
    · intro t ht htk
      rcases List.mem_append.mp ht with ht | ht
      · exact h.finishDeb t ht htk
      · rw [List.mem_singleton] at ht
        subst ht
        exact absurd htk (by simp)
  · exact h

theorem inv_pushFinish (h : PreInv s) : Inv (pushFinish s).2 := by
  refine ⟨fun _ => h.txHub h.txSome, h.scopeTx, ?_, ?_, fun _ => h.txSome,
    h.spanBound, h.tidBound, h.tidNodup, h.finishDeb⟩
  · have := h.idxPos
    simp only [pushFinish]
    omega
  · intro p hp
    have := h.keyLe p hp
    simp only [pushFinish]
    omega

theorem inv_pushActivity (h : Inv s) (u : ℚ) (n : String) (c : Option SpanContext)
    (a : Option ℤ) : Inv (pushActivity s u n c a).2 := by
  unfold pushActivity
  have h2 := inv_isEnabledCompute h u
  split
  · exact h2
  · split
    · exact h2
    · rename_i htx
      apply inv_pushFinish
      apply preinv_pushWithAutoPop
      apply preinv_pushStore (inv_clearTimeoutState h2 _)
      simp only [clearTimeoutState]
      exact Option.isSome_iff_ne_none.mpr htx

theorem inv_scheduleNonFinish (h : Inv s) {task : TimerTask}
    (htn : task ≠ TimerTask.finishIdle) (d : ℤ) : Inv (scheduleTimer s task d).2 := by
  refine ⟨h.txHub, h.scopeTx, h.idxPos, h.keyBound, h.regTx, h.spanBound, ?_, ?_, ?_⟩
  · exact tidBound_append h.tidBound _ _
  · exact tidNodup_append h.tidBound h.tidNodup _ _
  · intro t htm htk
    rcases List.mem_append.mp htm with htm | htm
    · exact h.finishDeb t htm htk
    · rw [List.mem_singleton] at htm
      subst htm
      exact absurd htk htn

theorem startBind_fst (s : TracingState) : (startBind s).1 = s.hub.nextSpanId := rfl

theorem startBind_snd (s : TracingState) :
    (startBind s).2 =
      { s with
        hub := { nextSpanId := s.hub.nextSpanId + 1, scopeSpan := some s.hub.nextSpanId },
        events := s.events ++ [Effect.startSpan s.hub.nextSpanId s.hub.scopeSpan true],
        activeTransaction := some s.hub.nextSpanId } := rfl

theorem inv_startBind (h : Inv s) (hg : s.hasGetter = true) (hh : s.hubOk = true) :
    Inv (startBind s).2 := by
  rw [startBind_snd]
  refine ⟨fun _ => ⟨hg, hh⟩, ?_, h.idxPos, h.keyBound, fun _ => rfl, ?_, h.tidBound,
    h.tidNodup, h.finishDeb⟩
  · intro i hi
    injection hi with hi
    subst hi
    rfl
  · intro i hi
    injection hi with hi
    subst hi
    exact Nat.lt_succ_self _

theorem inv_startBootstrap (h : Inv s) (u : ℚ) : Inv (startBootstrap s u) := by
  unfold startBootstrap
  exact inv_scheduleNonFinish (inv_pushActivity h u _ _ _) (by simp) _

theorem inv_startIdleTransaction (h : Inv s) (u : ℚ) (n : String) (c : Option SpanContext) :
    Inv (startIdleTransaction s u n c).2 := by
  unfold startIdleTransaction
  have h2 := inv_isEnabledCompute h u
  split
  · exact h2
  · split
    · exact inv_finishIdleTransaction h2
    · split
      · exact inv_finishIdleTransaction h2
      · rename_i hg hh
        have hg2 : (finishIdleTransaction (isEnabledCompute s u).2).hasGetter = true := by
          revert hg; cases (finishIdleTransaction (isEnabledCompute s u).2).hasGetter <;> simp
        have hh2 : (finishIdleTransaction (isEnabledCompute s u).2).hubOk = true := by
          revert hh; cases (finishIdleTransaction (isEnabledCompute s u).2).hubOk <;> simp
        exact inv_startBootstrap (inv_startBind (inv_finishIdleTransaction h2) hg2 hh2) u

theorem inv_fireTimer (h : Inv s) (u : ℚ) (t : Timer) : Inv (fireTimer s u t) := by
  unfold fireTimer
  have hc := inv_clearTimeoutState h t.tid
  cases htk : t.task with
  | finishIdle =>
    exact inv_finishIdleTransaction hc
  | bootstrapPop id =>
    exact inv_popActivity hc u id none
  | autoPop id =>
    exact inv_popActivity hc u id _

theorem inv_step {s s' : TracingState} (h : Inv s) (hs : Step s s') : Inv s' := by
  cases hs with
  | configure o => exact inv_optionsSet h o
  | setup =>
    exact ⟨fun ht => ⟨rfl, (h.txHub ht).2⟩, h.scopeTx, h.idxPos, h.keyBound, h.regTx,
      h.spanBound, h.tidBound, h.tidNodup, h.finishDeb⟩
  | start u name ctx => exact inv_startIdleTransaction h u name ctx
  | push u name ctx apa => exact inv_pushActivity h u name ctx apa
  | pop u id sd => exact inv_popActivity h u id sd
  | finish => exact inv_finishIdleTransaction h
  | setStatus st => exact inv_setTransactionStatus h st
  | hidden hdis => exact inv_discardOnHidden h true
  | advance d => exact inv_advanceTime h d
  | fire u t ht hr => exact inv_fireTimer h u t

theorem reachable_inv {s : TracingState} (h : Reachable s) : Inv s := by
  rcases h with ⟨hk, o, hr⟩
  induction hr with
  | refl => exact inv_initState hk o
  | tail _ hstep ih => exact inv_step ih hstep

end InvPreservationPush

/-- Recognizer for a `finish` call on span `tx` in the effect log. -/
def isFinishOf (tx : Nat) : Effect → Bool
  | Effect.finishSpan i _ => i = tx
  | _ => false

/-- All finish calls on span `tx` recorded in an effect log. -/
def finishEventsFor (tx : Nat) (es : List Effect) : List Effect :=
  es.filter (isFinishOf tx)

/-- Span `tx` is unreferenced by the controller: it is not the active
transaction, no registry entry points at it, and all future span ids are
larger. -/
def NoRef (tx : Nat) (s : TracingState) : Prop :=
  s.activeTransaction ≠ some tx ∧ (∀ p ∈ s.activities, p.2.span ≠ some tx) ∧
    tx < s.hub.nextSpanId

section ComponentLemmas

variable (s : TracingState) (u : ℚ)

theorem isEnabledCompute_activeTransaction :
    (isEnabledCompute s u).2.activeTransaction = s.activeTransaction := by
  rcases isEnabledCompute_snd s u with he | ⟨b, he⟩ <;> rw [he]

theorem isEnabledCompute_activities :
    (isEnabledCompute s u).2.activities = s.activities := by
  rcases isEnabledCompute_snd s u with he | ⟨b, he⟩ <;> rw [he]

theorem isEnabledCompute_events :
    (isEnabledCompute s u).2.events = s.events := by
  rcases isEnabledCompute_snd s u with he | ⟨b, he⟩ <;> rw [he]

theorem isEnabledCompute_hub :
    (isEnabledCompute s u).2.hub = s.hub := by
  rcases isEnabledCompute_snd s u with he | ⟨b, he⟩ <;> rw [he]

theorem isEnabledCompute_timers :
    (isEnabledCompute s u).2.timers = s.timers := by
  rcases isEnabledCompute_snd s u with he | ⟨b, he⟩ <;> rw [he]

theorem isEnabledCompute_debounce :
    (isEnabledCompute s u).2.debounce = s.debounce := by
  rcases isEnabledCompute_snd s u with he | ⟨b, he⟩ <;> rw [he]

theorem isEnabledCompute_nextTimerId :
    (isEnabledCompute s u).2.nextTimerId = s.nextTimerId := by
  rcases isEnabledCompute_snd s u with he | ⟨b, he⟩ <;> rw [he]

theorem isEnabledCompute_currentIndex :
    (isEnabledCompute s u).2.currentIndex = s.currentIndex := by
  rcases isEnabledCompute_snd s u with he | ⟨b, he⟩ <;> rw [he]

theorem isEnabledCompute_options :
    (isEnabledCompute s u).2.options = s.options := by
  rcases isEnabledCompute_snd s u with he | ⟨b, he⟩ <;> rw [he]

theorem isEnabledCompute_hasGetter :
    (isEnabledCompute s u).2.hasGetter = s.hasGetter := by
  rcases isEnabledCompute_snd s u with he | ⟨b, he⟩ <;> rw [he]

theorem isEnabledCompute_hubOk :
    (isEnabledCompute s u).2.hubOk = s.hubOk := by
  rcases isEnabledCompute_snd s u with he | ⟨b, he⟩ <;> rw [he]

theorem isEnabledCompute_ctrlView :
    ctrlView (isEnabledCompute s u).2 = ctrlView s := by
  rcases isEnabledCompute_snd s u with he | ⟨b, he⟩
  · rw [he]
  · rw [he]; rfl

end ComponentLemmas

theorem mem_of_regLookup {reg : List (Nat × Activity)} {i : Nat} {a : Activity}
    (h : regLookup reg i = some a) : (i, a) ∈ reg := by
  induction reg with
  | nil => simp [regLookup] at h
  | cons q rest ih =>
    simp only [regLookup] at h
    by_cases hqi : q.1 = i
    · rw [if_pos hqi] at h
      injection h with h
      have hq : q = (i, a) := by
        rcases q with ⟨qk, qv⟩
        simp only at hqi h
        rw [hqi, h]
      rw [hq]
      exact List.mem_cons_self _ _
    · rw [if_neg hqi] at h
      exact List.mem_cons_of_mem _ (ih h)

theorem mem_regInsert_val {reg : List (Nat × Activity)} {i : Nat} {a : Activity}
    {p : Nat × Activity} (h : p ∈ regInsert reg i a) : p ∈ reg ∨ p.2 = a := by
  unfold regInsert at h
  by_cases hl : (regLookup reg i).isSome
  · rw [if_pos hl] at h
    rcases List.mem_map.mp h with ⟨q, hq, hqe⟩
    by_cases hqi : q.1 = i
    · right; rw [if_pos hqi] at hqe; rw [← hqe]
    · left; rw [if_neg hqi] at hqe; exact hqe ▸ hq
  · rw [if_neg hl] at h
    rcases List.mem_append.mp h with h | h
    · exact Or.inl h
    · right; simp only [List.mem_singleton] at h; rw [h]

section NoRefPreservation

variable {tx : Nat} {s : TracingState}

theorem finishEventsFor_append (tx : Nat) (es1 es2 : List Effect) :
    finishEventsFor tx (es1 ++ es2) = finishEventsFor tx es1 ++ finishEventsFor tx es2 := by
  unfold finishEventsFor
  exact List.filter_append _ _

theorem finishEventsFor_popSpanEffects {sid : Nat} (htx : sid ≠ tx)
    (sd : Option (List (String × String))) :
    finishEventsFor tx (popSpanEffects sid sd) = [] := by
  unfold finishEventsFor
  rw [List.filter_eq_nil_iff]
  intro e he
  unfold popSpanEffects at he
  rcases List.mem_append.mp he with he | he
  · rcases sd with _ | kvs
    · simp at he
    · rcases List.mem_flatMap.mp he with ⟨kv, _, hkv⟩
      rcases List.mem_append.mp hkv with hkv | hkv
      · rcases List.mem_append.mp hkv with hkv | hkv
        · simp only [List.mem_singleton] at hkv
          subst hkv; simp [isFinishOf]
        · by_cases hkey : kv.1 = "status_code"
          · rw [if_pos hkey] at hkv
            simp only [List.mem_singleton] at hkv
            subst hkv; simp [isFinishOf]
          · rw [if_neg hkey] at hkv
            simp at hkv
      · by_cases hkey : kv.1 = "status"
        · rw [if_pos hkey] at hkv
          simp only [List.mem_singleton] at hkv
          subst hkv; simp [isFinishOf]
        · rw [if_neg hkey] at hkv
          simp at hkv
  · simp only [List.mem_singleton] at he
    subst he
    simp [isFinishOf, htx]

theorem noref_isEnabledCompute (h : NoRef tx s) (u : ℚ) :
    NoRef tx (isEnabledCompute s u).2 ∧
      finishEventsFor tx (isEnabledCompute s u).2.events = finishEventsFor tx s.events := by
  constructor
  · refine ⟨?_, ?_, ?_⟩
    · rw [isEnabledCompute_activeTransaction]; exact h.1
    · rw [isEnabledCompute_activities]; exact h.2.1
    · rw [isEnabledCompute_hub]; exact h.2.2
  · rw [isEnabledCompute_events]

theorem noref_finishIdleTransaction (h : NoRef tx s) :
    NoRef tx (finishIdleTransaction s) ∧
      finishEventsFor tx (finishIdleTransaction s).events = finishEventsFor tx s.events := by
  unfold finishIdleTransaction
  split
  · rename_i sid hsid
    refine ⟨⟨h.1, h.2.1, h.2.2⟩, ?_⟩
    rw [finishEventsFor_append]
    have hne : sid ≠ tx := by
      intro he
      exact h.1 (he ▸ hsid)
    have : finishEventsFor tx [Effect.finishSpan sid true] = [] := by
      simp [finishEventsFor, isFinishOf, hne]
    rw [this, List.append_nil]
  · exact ⟨h, rfl⟩

theorem noref_setTransactionStatus (h : NoRef tx s) (st : String) :
    NoRef tx (setTransactionStatus s st) ∧
      finishEventsFor tx (setTransactionStatus s st).events = finishEventsFor tx s.events := by
  unfold setTransactionStatus
  split
  · rename_i sid hsid
    refine ⟨⟨h.1, h.2.1, h.2.2⟩, ?_⟩
    rw [finishEventsFor_append]
    have hnil : finishEventsFor tx [Effect.statusSet sid st] = [] := by
      simp [finishEventsFor, isFinishOf]
    rw [hnil, List.append_nil]
  · exact ⟨h, rfl⟩

theorem noref_popRemovePhase (h : NoRef tx s) (id : Nat)
    (sd : Option (List (String × String))) :
    NoRef tx (popRemovePhase s id sd) ∧
      finishEventsFor tx (popRemovePhase s id sd).events = finishEventsFor tx s.events := by
  unfold popRemovePhase
  split
  · rename_i a hla
    split
    · rename_i sid hsp
      have hsid : sid ≠ tx := by
        intro he
        subst he
        exact h.2.1 (id, a) (mem_of_regLookup hla) hsp
      refine ⟨⟨h.1, fun p hp => h.2.1 p (mem_regRemove hp), h.2.2⟩, ?_⟩
      rw [finishEventsFor_append, finishEventsFor_popSpanEffects hsid, List.append_nil]
    · exact ⟨⟨h.1, fun p hp => h.2.1 p (mem_regRemove hp), h.2.2⟩, rfl⟩
  · exact ⟨h, rfl⟩

theorem noref_popReschedule (h : NoRef tx s) :
    NoRef tx (popReschedule s) ∧
      finishEventsFor tx (popReschedule s).events = finishEventsFor tx s.events := by
  unfold popReschedule
  split
  · exact ⟨⟨h.1, h.2.1, h.2.2⟩, rfl⟩
  · exact ⟨⟨h.1, h.2.1, h.2.2⟩, rfl⟩

theorem noref_popActivity (h : NoRef tx s) (u : ℚ) (id : Nat)
    (sd : Option (List (String × String))) :
    NoRef tx (popActivity s u id sd) ∧
      finishEventsFor tx (popActivity s u id sd).events = finishEventsFor tx s.events := by
  unfold popActivity
  have h1 := noref_isEnabledCompute h u
  split
  · exact h1
  · have h2 := noref_popRemovePhase h1.1 id sd
    have h3 := noref_popReschedule h2.1
    exact ⟨h3.1, by rw [h3.2, h2.2, h1.2]⟩

theorem pushStore_withSpan {s : TracingState} {n : String} {c : Option SpanContext}
    (hc : c.isSome = true ∧ s.hasGetter = true) (hh : s.hubOk = true) :
    pushStore s n c =
      { s with
        hub := { s.hub with nextSpanId := s.hub.nextSpanId + 1 },
        events := s.events ++ [Effect.startSpan s.hub.nextSpanId s.hub.scopeSpan false],
        activities := regInsert s.activities s.currentIndex ⟨n, some s.hub.nextSpanId⟩ } := by
  unfold pushStore
  rw [if_pos hc, if_pos hh]
  rfl

theorem pushStore_hubFalsy {s : TracingState} {n : String} {c : Option SpanContext}
    (hc : c.isSome = true ∧ s.hasGetter = true) (hh : ¬s.hubOk = true) :
    pushStore s n c = s := by
  unfold pushStore
  rw [if_pos hc, if_neg hh]

theorem pushStore_plain {s : TracingState} {n : String} {c : Option SpanContext}
    (hc : ¬(c.isSome = true ∧ s.hasGetter = true)) :
    pushStore s n c =
      { s with activities := regInsert s.activities s.currentIndex ⟨n, none⟩ } := by
  unfold pushStore
  rw [if_neg hc]

theorem noref_pushStore (h : NoRef tx s) (n : String) (c : Option SpanContext) :
    NoRef tx (pushStore s n c) ∧
      finishEventsFor tx (pushStore s n c).events = finishEventsFor tx s.events := by
  by_cases hc : c.isSome = true ∧ s.hasGetter = true
  · by_cases hh : s.hubOk = true
    · rw [pushStore_withSpan hc hh]
      refine ⟨⟨h.1, ?_, ?_⟩, ?_⟩
      · intro p hp
        rcases mem_regInsert_val hp with hm | hm
        · exact h.2.1 p hm
        · rw [hm]
          intro he
          injection he with he
          have := h.2.2
          omega
      · have := h.2.2
        simp only
        omega
      · rw [show ({ s with
            hub := { s.hub with nextSpanId := s.hub.nextSpanId + 1 },
            events := s.events ++ [Effect.startSpan s.hub.nextSpanId s.hub.scopeSpan false],
            activities := regInsert s.activities s.currentIndex
              ⟨n, some s.hub.nextSpanId⟩ } : TracingState).events =
          s.events ++ [Effect.startSpan s.hub.nextSpanId s.hub.scopeSpan false] from rfl]
        rw [finishEventsFor_append]
        have hnil : finishEventsFor tx
            [Effect.startSpan s.hub.nextSpanId s.hub.scopeSpan false] = [] := by
          simp [finishEventsFor, isFinishOf]
        rw [hnil, List.append_nil]
    · rw [pushStore_hubFalsy hc hh]
      exact ⟨h, rfl⟩
  · rw [pushStore_plain hc]
    refine ⟨⟨h.1, ?_, h.2.2⟩, rfl⟩
    intro p hp
    rcases mem_regInsert_val hp with hm | hm
    · exact h.2.1 p hm
    · rw [hm]
      simp [Activity.span]

theorem noref_pushWithAutoPop (h : NoRef tx s) (a : Option ℤ) :
    NoRef tx (pushWithAutoPop s a) ∧
      finishEventsFor tx (pushWithAutoPop s a).events = finishEventsFor tx s.events := by
  unfold pushWithAutoPop
  split
  · exact ⟨⟨h.1, h.2.1, h.2.2⟩, rfl⟩
  · exact ⟨h, rfl⟩

theorem noref_pushActivity (h : NoRef tx s) (u : ℚ) (n : String) (c : Option SpanContext)
    (a : Option ℤ) :
    NoRef tx (pushActivity s u n c a).2 ∧
      finishEventsFor tx (pushActivity s u n c a).2.events = finishEventsFor tx s.events := by
  unfold pushActivity
  have h1 := noref_isEnabledCompute h u
  split
  · exact h1
  · split
    · exact h1
    · have hC : NoRef tx (clearTimeoutState (isEnabledCompute s u).2
          (isEnabledCompute s u).2.debounce) ∧
          finishEventsFor tx (clearTimeoutState (isEnabledCompute s u).2
            (isEnabledCompute s u).2.debounce).events = finishEventsFor tx s.events := by
        exact ⟨⟨h1.1.1, h1.1.2.1, h1.1.2.2⟩, h1.2⟩
      have h2 := noref_pushStore hC.1 n c
      have h3 := noref_pushWithAutoPop h2.1 a
      refine ⟨⟨h3.1.1, h3.1.2.1, h3.1.2.2⟩, ?_⟩
      rw [show (pushFinish (pushWithAutoPop (pushStore (clearTimeoutState
        (isEnabledCompute s u).2 (isEnabledCompute s u).2.debounce) n c) a)).2.events =
        (pushWithAutoPop (pushStore (clearTimeoutState (isEnabledCompute s u).2
          (isEnabledCompute s u).2.debounce) n c) a).events from rfl]
      rw [h3.2, h2.2, hC.2]

theorem noref_startBind (h : NoRef tx s) :
    NoRef tx (startBind s).2 ∧
      finishEventsFor tx (startBind s).2.events = finishEventsFor tx s.events := by
  rw [startBind_snd]
  refine ⟨⟨?_, h.2.1, ?_⟩, ?_⟩
  · intro he
    injection he with he
    have := h.2.2
    omega
  · have := h.2.2
    simp only
    omega
  · rw [show ({ s with
        hub := { nextSpanId := s.hub.nextSpanId + 1, scopeSpan := some s.hub.nextSpanId },
        events := s.events ++ [Effect.startSpan s.hub.nextSpanId s.hub.scopeSpan true],
        activeTransaction := some s.hub.nextSpanId } : TracingState).events =
      s.events ++ [Effect.startSpan s.hub.nextSpanId s.hub.scopeSpan true] from rfl]
    rw [finishEventsFor_append]
    have hnil : finishEventsFor tx
        [Effect.startSpan s.hub.nextSpanId s.hub.scopeSpan true] = [] := by
      simp [finishEventsFor, isFinishOf]
    rw [hnil, List.append_nil]

theorem noref_startBootstrap (h : NoRef tx s) (u : ℚ) :
    NoRef tx (startBootstrap s u) ∧
      finishEventsFor tx (startBootstrap s u).events = finishEventsFor tx s.events := by
  unfold startBootstrap
  have h1 := noref_pushActivity h u "idleTransactionStarted" none none
  exact ⟨⟨h1.1.1, h1.1.2.1, h1.1.2.2⟩, h1.2⟩

theorem noref_startIdleTransaction (h : NoRef tx s) (u : ℚ) (n : String)
    (c : Option SpanContext) :
    NoRef tx (startIdleTransaction s u n c).2 ∧
      finishEventsFor tx (startIdleTransaction s u n c).2.events =
        finishEventsFor tx s.events := by
  unfold startIdleTransaction
  have h1 := noref_isEnabledCompute h u
  split
  · exact h1
  · have h2 := noref_finishIdleTransaction h1.1
    split
    · exact ⟨h2.1, by rw [h2.2, h1.2]⟩
    · split
      · exact ⟨h2.1, by rw [h2.2, h1.2]⟩
      · have h3 := noref_startBind h2.1
        have h4 := noref_startBootstrap h3.1 u
        exact ⟨h4.1, by rw [h4.2, h3.2, h2.2, h1.2]⟩

theorem noref_discardOnHidden (h : NoRef tx s) (hid : Bool) :
    NoRef tx (discardOnHidden s hid) ∧
      finishEventsFor tx (discardOnHidden s hid).events = finishEventsFor tx s.events := by
  unfold discardOnHidden
  split
  · exact ⟨⟨by simp, by simp, h.2.2⟩, rfl⟩
  · exact ⟨h, rfl⟩

theorem noref_advanceTime (h : NoRef tx s) (d : ℤ) :
    NoRef tx (advanceTime s d) ∧
      finishEventsFor tx (advanceTime s d).events = finishEventsFor tx s.events :=
  ⟨⟨h.1, h.2.1, h.2.2⟩, rfl⟩

theorem noref_clearTimeoutState (h : NoRef tx s) (n : Nat) :
    NoRef tx (clearTimeoutState s n) ∧
      finishEventsFor tx (clearTimeoutState s n).events = finishEventsFor tx s.events :=
  ⟨⟨h.1, h.2.1, h.2.2⟩, rfl⟩

theorem noref_fireTimer (h : NoRef tx s) (u : ℚ) (t : Timer) :
    NoRef tx (fireTimer s u t) ∧
      finishEventsFor tx (fireTimer s u t).events = finishEventsFor tx s.events := by
  unfold fireTimer
  have hc := noref_clearTimeoutState h t.tid
  cases htk : t.task with
  | finishIdle =>
    simp only [runTask]
    have h2 := noref_finishIdleTransaction hc.1
    exact ⟨h2.1, by rw [h2.2, hc.2]⟩
  | bootstrapPop id =>
    simp only [runTask]
    have h2 := noref_popActivity hc.1 u id none
    exact ⟨h2.1, by rw [h2.2, hc.2]⟩
  | autoPop id =>
    simp only [runTask]
    have h2 := noref_popActivity hc.1 u id
      (some [("autoPop", "true"), ("status", "deadline_exceeded")])
    exact ⟨h2.1, by rw [h2.2, hc.2]⟩

theorem noref_step {s s' : TracingState} (h : NoRef tx s) (hs : Step s s') :
    NoRef tx s' ∧ finishEventsFor tx s'.events = finishEventsFor tx s.events := by
  cases hs with
  | configure o => exact ⟨⟨h.1, h.2.1, h.2.2⟩, rfl⟩
  | setup => exact ⟨⟨h.1, h.2.1, h.2.2⟩, rfl⟩
  | start u name ctx => exact noref_startIdleTransaction h u name ctx
  | push u name ctx apa => exact noref_pushActivity h u name ctx apa
  | pop u id sd => exact noref_popActivity h u id sd
  | finish => exact noref_finishIdleTransaction h
  | setStatus st => exact noref_setTransactionStatus h st
  | hidden hdis => exact noref_discardOnHidden h true
  | advance d => exact noref_advanceTime h d
  | fire u t ht hr => exact noref_fireTimer h u t

theorem noref_trace {s s' : TracingState}
    (hs : Relation.ReflTransGen Step s s') (h : NoRef tx s) :
    NoRef tx s' ∧ finishEventsFor tx s'.events = finishEventsFor tx s.events := by
  induction hs with
  | refl => exact ⟨h, rfl⟩
  | tail _ hstep ih =>
    have h2 := noref_step ih.1 hstep
    exact ⟨h2.1, by rw [h2.2, ih.2]⟩

end NoRefPreservation

section BranchLemmas

variable {s : TracingState} {u : ℚ}

theorem pushActivity_disabled {n : String} {c : Option SpanContext} {a : Option ℤ}
    (hc : (isEnabledCompute s u).1 = false) :
    pushActivity s u n c a = (0, (isEnabledCompute s u).2) := by
  unfold pushActivity
  rw [if_pos hc]

theorem pushActivity_noTx {n : String} {c : Option SpanContext} {a : Option ℤ}
    (hc : ¬(isEnabledCompute s u).1 = false)
    (ht : (isEnabledCompute s u).2.activeTransaction = none) :
    pushActivity s u n c a = (0, (isEnabledCompute s u).2) := by
  unfold pushActivity
  rw [if_neg hc, if_pos ht]

theorem pushActivity_main {n : String} {c : Option SpanContext} {a : Option ℤ}
    (hc : ¬(isEnabledCompute s u).1 = false)
    (ht : ¬(isEnabledCompute s u).2.activeTransaction = none) :
    pushActivity s u n c a =
      pushFinish (pushWithAutoPop
        (pushStore (clearTimeoutState (isEnabledCompute s u).2
          (isEnabledCompute s u).2.debounce) n c) a) := by
  unfold pushActivity
  rw [if_neg hc, if_neg ht]

theorem popActivity_noop {id : Nat} {sd : Option (List (String × String))}
    (hc : (isEnabledCompute s u).1 = false ∨ id = 0) :
    popActivity s u id sd = (isEnabledCompute s u).2 := by
  unfold popActivity
  rw [if_pos hc]

theorem popActivity_main {id : Nat} {sd : Option (List (String × String))}
    (hc : ¬((isEnabledCompute s u).1 = false ∨ id = 0)) :
    popActivity s u id sd =
      popReschedule (popRemovePhase (isEnabledCompute s u).2 id sd) := by
  unfold popActivity
  rw [if_neg hc]

theorem popRemovePhase_absent {id : Nat} {sd : Option (List (String × String))}
    (h : regLookup s.activities id = none) : popRemovePhase s id sd = s := by
  unfold popRemovePhase
  rw [h]

theorem popRemovePhase_withSpan {id sid : Nat} {a : Activity}
    {sd : Option (List (String × String))}
    (h : regLookup s.activities id = some a) (hsp : a.span = some sid) :
    popRemovePhase s id sd =
      { s with
        events := s.events ++ popSpanEffects sid sd,
        activities := regRemove s.activities id } := by
  simp only [popRemovePhase, h, hsp]

theorem popRemovePhase_noSpan {id : Nat} {a : Activity}
    {sd : Option (List (String × String))}
    (h : regLookup s.activities id = some a) (hsp : a.span = none) :
    popRemovePhase s id sd = { s with activities := regRemove s.activities id } := by
  simp only [popRemovePhase, h, hsp]

theorem popReschedule_schedule
    (h : s.activities.length = 0 ∧ s.activeTransaction.isSome = true) :
    popReschedule s =
      { s with
        timers := s.timers.filter (fun t => t.tid ≠ s.debounce) ++
          [{ tid := s.nextTimerId, remaining := s.options.idleTimeout,
             task := TimerTask.finishIdle }],
        nextTimerId := s.nextTimerId + 1,
        debounce := s.nextTimerId } := by
  unfold popReschedule
  rw [if_pos h]
  rfl

theorem popReschedule_noSchedule
    (h : ¬(s.activities.length = 0 ∧ s.activeTransaction.isSome = true)) :
    popReschedule s = clearTimeoutState s s.debounce := by
  unfold popReschedule
  rw [if_neg h]

theorem startIdleTransaction_disabled {n : String} {c : Option SpanContext}
    (hc : (isEnabledCompute s u).1 = false) :
    startIdleTransaction s u n c = (none, (isEnabledCompute s u).2) := by
  unfold startIdleTransaction
  rw [if_pos hc]

theorem startIdleTransaction_noGetter {n : String} {c : Option SpanContext}
    (hc : ¬(isEnabledCompute s u).1 = false)
    (hg : (finishIdleTransaction (isEnabledCompute s u).2).hasGetter = false) :
    startIdleTransaction s u n c =
      (none, finishIdleTransaction (isEnabledCompute s u).2) := by
  unfold startIdleTransaction
  rw [if_neg hc, if_pos hg]

theorem startIdleTransaction_noHub {n : String} {c : Option SpanContext}
    (hc : ¬(isEnabledCompute s u).1 = false)
    (hg : ¬(finishIdleTransaction (isEnabledCompute s u).2).hasGetter = false)
    (hh : (finishIdleTransaction (isEnabledCompute s u).2).hubOk = false) :
    startIdleTransaction s u n c =
      (none, finishIdleTransaction (isEnabledCompute s u).2) := by
  unfold startIdleTransaction
  rw [if_neg hc, if_neg hg, if_pos hh]

theorem startIdleTransaction_main {n : String} {c : Option SpanContext}
    (hc : ¬(isEnabledCompute s u).1 = false)
    (hg : ¬(finishIdleTransaction (isEnabledCompute s u).2).hasGetter = false)
    (hh : ¬(finishIdleTransaction (isEnabledCompute s u).2).hubOk = false) :
    startIdleTransaction s u n c =
      (some (startBind (finishIdleTransaction (isEnabledCompute s u).2)).1,
        startBootstrap (startBind (finishIdleTransaction (isEnabledCompute s u).2)).2 u) := by
  unfold startIdleTransaction
  rw [if_neg hc, if_neg hg, if_neg hh]

theorem finishIdleTransaction_some {t : Nat} (h : s.activeTransaction = some t) :
    finishIdleTransaction s = { s with events := s.events ++ [Effect.finishSpan t true] } := by
  unfold finishIdleTransaction
  rw [h]

theorem finishIdleTransaction_none (h : s.activeTransaction = none) :
    finishIdleTransaction s = s := by
  unfold finishIdleTransaction
  rw [h]

theorem discardOnHidden_active (h : s.activeTransaction.isSome = true) :
    discardOnHidden s true = { s with activeTransaction := none, activities := [] } := by
  unfold discardOnHidden
  rw [if_pos ⟨rfl, h⟩]

theorem pushFinish_snd (s : TracingState) :
    (pushFinish s).2 = { s with currentIndex := s.currentIndex + 1 } := rfl

theorem pushFinish_fst (s : TracingState) : (pushFinish s).1 = s.currentIndex := rfl

theorem pushWithAutoPop_some (s : TracingState) (d : ℤ) :
    pushWithAutoPop s (some d) =
      { s with
        nextTimerId := s.nextTimerId + 1,
        timers := s.timers ++
          [{ tid := s.nextTimerId, remaining := d,
             task := TimerTask.autoPop s.currentIndex }] } := rfl

theorem pushWithAutoPop_none (s : TracingState) : pushWithAutoPop s none = s := rfl

theorem pushWithAutoPop_events (s : TracingState) (a : Option ℤ) :
    (pushWithAutoPop s a).events = s.events := by
  unfold pushWithAutoPop
  split <;> rfl

theorem pushWithAutoPop_debounce (s : TracingState) (a : Option ℤ) :
    (pushWithAutoPop s a).debounce = s.debounce := by
  unfold pushWithAutoPop
  split <;> rfl

theorem pushWithAutoPop_options (s : TracingState) (a : Option ℤ) :
    (pushWithAutoPop s a).options = s.options := by
  unfold pushWithAutoPop
  split <;> rfl

theorem pushWithAutoPop_hub (s : TracingState) (a : Option ℤ) :
    (pushWithAutoPop s a).hub = s.hub := by
  unfold pushWithAutoPop
  split <;> rfl

theorem scheduleTimer_timers (s : TracingState) (task : TimerTask) (d : ℤ) :
    (scheduleTimer s task d).2.timers =
      s.timers ++ [{ tid := s.nextTimerId, remaining := d, task := task }] := rfl

theorem scheduleTimer_mem_new (s : TracingState) (task : TimerTask) (d : ℤ) :
    ∃ t, t ∈ (scheduleTimer s task d).2.timers ∧ t.task = task ∧ t.remaining = d :=
  ⟨{ tid := s.nextTimerId, remaining := d, task := task },
    by
      rw [scheduleTimer_timers]
      exact List.mem_append_right _ (List.mem_singleton.mpr rfl),
    rfl, rfl⟩

theorem finishTimers_pushWithAutoPop (s : TracingState) (a : Option ℤ) :
    finishTimers (pushWithAutoPop s a).timers = finishTimers s.timers := by
  unfold pushWithAutoPop
  split
  · rw [scheduleTimer_timers]
    unfold finishTimers
    rw [List.filter_append]
    simp
  · rfl

theorem pushStore_events_mem {s : TracingState} {n : String} {c : Option SpanContext}
    {e : Effect} (he : e ∈ s.events) : e ∈ (pushStore s n c).events := by
  unfold pushStore
  split
  · split
    · exact List.mem_append_left _ he
    · exact he
  · exact he

end BranchLemmas

section MoreComponents

theorem finishIdleTransaction_activities (s : TracingState) :
    (finishIdleTransaction s).activities = s.activities := by
  unfold finishIdleTransaction
  split <;> rfl

theorem finishIdleTransaction_activeTransaction (s : TracingState) :
    (finishIdleTransaction s).activeTransaction = s.activeTransaction := by
  unfold finishIdleTransaction
  split <;> rfl

theorem finishIdleTransaction_timers (s : TracingState) :
    (finishIdleTransaction s).timers = s.timers := by
  unfold finishIdleTransaction
  split <;> rfl

theorem finishIdleTransaction_debounce (s : TracingState) :
    (finishIdleTransaction s).debounce = s.debounce := by
  unfold finishIdleTransaction
  split <;> rfl

theorem finishIdleTransaction_nextTimerId (s : TracingState) :
    (finishIdleTransaction s).nextTimerId = s.nextTimerId := by
  unfold finishIdleTransaction
  split <;> rfl

theorem finishIdleTransaction_currentIndex (s : TracingState) :
    (finishIdleTransaction s).currentIndex = s.currentIndex := by
  unfold finishIdleTransaction
  split <;> rfl

theorem finishIdleTransaction_options (s : TracingState) :
    (finishIdleTransaction s).options = s.options := by
  unfold finishIdleTransaction
  split <;> rfl

theorem finishIdleTransaction_hasGetter (s : TracingState) :
    (finishIdleTransaction s).hasGetter = s.hasGetter := by
  unfold finishIdleTransaction
  split <;> rfl

theorem finishIdleTransaction_hubOk (s : TracingState) :
    (finishIdleTransaction s).hubOk = s.hubOk := by
  unfold finishIdleTransaction
  split <;> rfl

theorem finishIdleTransaction_hub (s : TracingState) :
    (finishIdleTransaction s).hub = s.hub := by
  unfold finishIdleTransaction
  split <;> rfl

theorem finishIdleTransaction_enabled (s : TracingState) :
    (finishIdleTransaction s).enabled = s.enabled := by
  unfold finishIdleTransaction
  split <;> rfl

theorem popRemovePhase_activeTransaction (s : TracingState) (id : Nat)
    (sd : Option (List (String × String))) :
    (popRemovePhase s id sd).activeTransaction = s.activeTransaction := by
  unfold popRemovePhase
  split <;> (try split) <;> rfl

theorem popRemovePhase_timers (s : TracingState) (id : Nat)
    (sd : Option (List (String × String))) :
    (popRemovePhase s id sd).timers = s.timers := by
  unfold popRemovePhase
  split <;> (try split) <;> rfl

theorem popRemovePhase_debounce (s : TracingState) (id : Nat)
    (sd : Option (List (String × String))) :
    (popRemovePhase s id sd).debounce = s.debounce := by
  unfold popRemovePhase
  split <;> (try split) <;> rfl

theorem popRemovePhase_nextTimerId (s : TracingState) (id : Nat)
    (sd : Option (List (String × String))) :
    (popRemovePhase s id sd).nextTimerId = s.nextTimerId := by
  unfold popRemovePhase
  split <;> (try split) <;> rfl

theorem popRemovePhase_options (s : TracingState) (id : Nat)
    (sd : Option (List (String × String))) :
    (popRemovePhase s id sd).options = s.options := by
  unfold popRemovePhase
  split <;> (try split) <;> rfl

theorem setTransactionStatus_timers (s : TracingState) (st : String) :
    (setTransactionStatus s st).timers = s.timers := by
  unfold setTransactionStatus
  split <;> rfl

theorem discardOnHidden_timers (s : TracingState) (hid : Bool) :
    (discardOnHidden s hid).timers = s.timers := by
  unfold discardOnHidden
  split <;> rfl

theorem isEnabledCompute_cached {s : TracingState} {b : Bool} (hb : s.enabled = some b)
    (u : ℚ) : isEnabledCompute s u = (b, s) := by
  unfold isEnabledCompute
  rw [hb]

theorem isEnabledCompute_true_cache {s : TracingState} {u : ℚ}
    (h : (isEnabledCompute s u).1 = true) :
    (isEnabledCompute s u).2.enabled = some true := by
  rcases hs : s.enabled with _ | b
  · rcases hr : s.options.tracesSampleRate with _ | r
    · simp [isEnabledCompute, hs, hr] at h
    · by_cases hu : u > r
      · simp [isEnabledCompute, hs, hr, hu] at h
      · simp [isEnabledCompute, hs, hr, hu]
  · have hbt : b = true := by
      rw [isEnabledCompute_cached hs u] at h
      exact h
    rw [isEnabledCompute_cached hs u]
    show s.enabled = some true
    rw [hs, hbt]

theorem clearTimeoutState_activities (s : TracingState) (n : Nat) :
    (clearTimeoutState s n).activities = s.activities := rfl

theorem clearTimeoutState_currentIndex (s : TracingState) (n : Nat) :
    (clearTimeoutState s n).currentIndex = s.currentIndex := rfl

theorem clearTimeoutState_events (s : TracingState) (n : Nat) :
    (clearTimeoutState s n).events = s.events := rfl

theorem clearTimeoutState_hub (s : TracingState) (n : Nat) :
    (clearTimeoutState s n).hub = s.hub := rfl

theorem clearTimeoutState_activeTransaction (s : TracingState) (n : Nat) :
    (clearTimeoutState s n).activeTransaction = s.activeTransaction := rfl

theorem clearTimeoutState_hasGetter (s : TracingState) (n : Nat) :
    (clearTimeoutState s n).hasGetter = s.hasGetter := rfl

theorem clearTimeoutState_hubOk (s : TracingState) (n : Nat) :
    (clearTimeoutState s n).hubOk = s.hubOk := rfl

theorem bool_true_of_not_false {b : Bool} (h : ¬b = false) : b = true := by
  cases b
  · exact absurd rfl h
  · rfl

theorem length_le_one_of_nodup_const {l : List Nat} (hn : l.Nodup) (a : Nat)
    (h : ∀ x ∈ l, x = a) : l.length ≤ 1 := by
  match l with
  | [] => simp
  | [x] => simp
  | x :: y :: rest =>
    exfalso
    have hx := h x (by simp)
    have hy := h y (by simp)
    have hne : x ≠ y := by
      have := (List.nodup_cons.mp hn).1
      intro hxy
      exact this (hxy ▸ List.mem_cons_self y rest)
    exact hne (hx.trans hy.symm)

theorem inv_finishTimers_length (h : Inv s) : (finishTimers s.timers).length ≤ 1 := by
  have hlen : (finishTimers s.timers).length =
      ((finishTimers s.timers).map Timer.tid).length := by
    rw [List.length_map]
  rw [hlen]
  apply length_le_one_of_nodup_const _ s.debounce
  · intro x hx
    rcases List.mem_map.mp hx with ⟨t, ht, he⟩
    have hmem := List.mem_filter.mp ht
    have htk : t.task = TimerTask.finishIdle := by
      have := hmem.2
      simpa using this
    rw [← he]
    exact h.finishDeb t hmem.1 htk
  · exact h.tidNodup.sublist ((List.filter_sublist _).map _)

theorem finish_mem_pushActivity {s : TracingState} {u : ℚ} {n : String}
    {c : Option SpanContext} {a : Option ℤ} {t : Timer}
    (ht : t ∈ (pushActivity s u n c a).2.timers)
    (htk : t.task = TimerTask.finishIdle) : t ∈ s.timers := by
  by_cases hc1 : (isEnabledCompute s u).1 = false
  · rw [pushActivity_disabled hc1, isEnabledCompute_timers] at ht
    exact ht
  · by_cases hc2 : (isEnabledCompute s u).2.activeTransaction = none
    · rw [pushActivity_noTx hc1 hc2, isEnabledCompute_timers] at ht
      exact ht
    · rw [pushActivity_main hc1 hc2] at ht
      rw [pushFinish_snd] at ht
      have ht2 : t ∈ (pushWithAutoPop (pushStore (clearTimeoutState (isEnabledCompute s u).2
          (isEnabledCompute s u).2.debounce) n c) a).timers := ht
      rcases a with _ | d
      · rw [pushWithAutoPop_none, pushStore_timers] at ht2
        rw [← isEnabledCompute_timers s u]
        exact (List.mem_filter.mp ht2).1
      · rw [pushWithAutoPop_some] at ht2
        rcases List.mem_append.mp ht2 with h3 | h3
        · rw [pushStore_timers] at h3
          rw [← isEnabledCompute_timers s u]
          exact (List.mem_filter.mp h3).1
        · rw [List.mem_singleton] at h3
          subst h3
          exact absurd htk (by simp)

end MoreComponents

section ConcreteRuns

/-- The option record produced by the constructor with no overrides: the
documented defaults. -/
def defaultOpts : TracingOptions :=
  { idleTimeout := 500, maxTransactionDuration := 600,
    tracesSampleRate := some 1, discardBackgroundSpans := true }

/-- The defaults with `idleTimeout` configured to `0`. -/
def zeroIdleOpts : TracingOptions :=
  { idleTimeout := 0, maxTransactionDuration := 600,
    tracesSampleRate := some 1, discardBackgroundSpans := true }

/-- Page load with defaults. -/
def sA0 : TracingState := initState true defaultOpts

/-- After `setupOnce` wires the hub getter. -/
def sA1 : TracingState := { sA0 with hasGetter := true }

/-- After the pageload `startIdleTransaction`: transaction span `1` active,
bootstrap activity `1` registered, its auto-pop timer (id `1`) pending. -/
def sA2 : TracingState := (startIdleTransaction sA1 0 "pageload" none).2

/-- After an adapter pushes an `xhr` activity with a span context: activity
`2` holds child span `2`. -/
def sA3 : TracingState := (pushActivity sA2 0 "xhr" (some ⟨"http"⟩) none).2

/-- After a second `startIdleTransaction` replaces the first while activity
`2` is still open. -/
def sA4 : TracingState := (startIdleTransaction sA3 0 "navigation" none).2

/-- After popping the bootstrap activity of `sA2`: registry empty, finish
timer (id `2`) pending. -/
def sB3 : TracingState := popActivity sA2 0 1 none

/-- 300 ms later: both pending timers have 200 ms left. -/
def sB4 : TracingState := advanceTime sB3 300

/-- A background discard arriving at `sB3`: transaction dropped, registry
cleared, the two timers left pending. -/
def sC4 : TracingState := discardOnHidden sB3 true

/-- Page load with `idleTimeout = 0`, after `setupOnce`. -/
def sD1 : TracingState := { initState true zeroIdleOpts with hasGetter := true }

/-- After `startIdleTransaction` under `idleTimeout = 0`. -/
def sD2 : TracingState := (startIdleTransaction sD1 0 "pageload" none).2

theorem reach_sA2 : Relation.ReflTransGen Step sA0 sA2 :=
  Relation.ReflTransGen.tail
    (Relation.ReflTransGen.tail Relation.ReflTransGen.refl (Step.setup sA0))
    (Step.start sA1 0 "pageload" none)

theorem reach_sA3 : Relation.ReflTransGen Step sA0 sA3 :=
  Relation.ReflTransGen.tail reach_sA2 (Step.push sA2 0 "xhr" (some ⟨"http"⟩) none)

theorem reach_sA4 : Relation.ReflTransGen Step sA0 sA4 :=
  Relation.ReflTransGen.tail reach_sA3 (Step.start sA3 0 "navigation" none)

theorem reach_sB3 : Relation.ReflTransGen Step sA0 sB3 :=
  Relation.ReflTransGen.tail reach_sA2 (Step.pop sA2 0 1 none)

theorem reach_sB4 : Relation.ReflTransGen Step sA0 sB4 :=
  Relation.ReflTransGen.tail reach_sB3 (Step.advance sB3 300)

theorem reach_sC4 : Relation.ReflTransGen Step sA0 sC4 :=
  Relation.ReflTransGen.tail reach_sB3 (Step.hidden sB3 (by decide))

theorem reach_sD2 : Relation.ReflTransGen Step (initState true zeroIdleOpts) sD2 :=
  Relation.ReflTransGen.tail
    (Relation.ReflTransGen.tail Relation.ReflTransGen.refl
      (Step.setup (initState true zeroIdleOpts)))
    (Step.start sD1 0 "pageload" none)

theorem reachable_sA2 : Reachable sA2 := ⟨true, defaultOpts, reach_sA2⟩

theorem reachable_sA3 : Reachable sA3 := ⟨true, defaultOpts, reach_sA3⟩

theorem reachable_sB4 : Reachable sB4 := ⟨true, defaultOpts, reach_sB4⟩

theorem reachable_sC4 : Reachable sC4 := ⟨true, defaultOpts, reach_sC4⟩

theorem reachable_sD2 : Reachable sD2 := ⟨true, zeroIdleOpts, reach_sD2⟩

end ConcreteRuns

/-- C1 counterexample: at the reachable state `sB4` (transaction active,
registry empty, finish timer pending with 200 ms left) a `popActivity` of the
absent id `7` leaves the registry and transaction alone but cancels the
200 ms finish timer and schedules a fresh 500 ms one — the pending finish
timer is not left unchanged, so the call is not a no-op. -/
theorem C1_counterexample :
    Reachable sB4 ∧
    (7 : Nat) ≠ 0 ∧
    regLookup sB4.activities 7 = none ∧
    (isEnabledCompute sB4 0).1 = true ∧
    (popActivity sB4 0 7 none).activities = sB4.activities ∧
    (popActivity sB4 0 7 none).activeTransaction = sB4.activeTransaction ∧
    finishTimers sB4.timers = [⟨2, 200, TimerTask.finishIdle⟩] ∧
    finishTimers (popActivity sB4 0 7 none).timers = [⟨3, 500, TimerTask.finishIdle⟩] ∧
    (popActivity sB4 0 7 none).timers ≠ sB4.timers :=
  ⟨reachable_sB4, by decide, by decide, by decide, by decide, by decide, by decide,
    by decide, by decide⟩

/-- C1 (amended): `popActivity` with tracing disabled or `id = 0` leaves the
whole controller state unchanged; `popActivity` of a nonzero id absent from
the registry leaves the registry, the active transaction and the effect log
unchanged, but still cancels the pending finish timer and, when the registry
is empty and a transaction is active, schedules a fresh one — so a redundant
pop or a late auto-pop restarts the idle countdown instead of having no
effect. -/
theorem C1_popActivity_redundant (s : TracingState) (u : ℚ) (id : Nat)
    (sd : Option (List (String × String))) :
    ((isEnabledCompute s u).1 = false ∨ id = 0 →
      ctrlView (popActivity s u id sd) = ctrlView s) ∧
    ((isEnabledCompute s u).1 = true → id ≠ 0 → regLookup s.activities id = none →
      (popActivity s u id sd).activities = s.activities ∧
      (popActivity s u id sd).activeTransaction = s.activeTransaction ∧
      (popActivity s u id sd).events = s.events ∧
      (popActivity s u id sd).timers =
        (if s.activities.length = 0 ∧ s.activeTransaction.isSome = true then
          s.timers.filter (fun t => t.tid ≠ s.debounce) ++
            [{ tid := s.nextTimerId, remaining := s.options.idleTimeout,
               task := TimerTask.finishIdle }]
         else s.timers.filter (fun t => t.tid ≠ s.debounce))) := by
  constructor
  · intro hc
    rw [popActivity_noop hc]
    exact isEnabledCompute_ctrlView s u
  · intro hen hid hlook
    have hc : ¬((isEnabledCompute s u).1 = false ∨ id = 0) := by
      intro h
      rcases h with h | h
      · rw [hen] at h
        exact Bool.noConfusion h
      · exact hid h
    have hlook2 : regLookup (isEnabledCompute s u).2.activities id = none := by
      rw [isEnabledCompute_activities]
      exact hlook
    rw [popActivity_main hc, popRemovePhase_absent hlook2]
    by_cases hcond : s.activities.length = 0 ∧ s.activeTransaction.isSome = true
    · have hcond2 : (isEnabledCompute s u).2.activities.length = 0 ∧
          (isEnabledCompute s u).2.activeTransaction.isSome = true := by
        rw [isEnabledCompute_activities, isEnabledCompute_activeTransaction]
        exact hcond
      rw [popReschedule_schedule hcond2, if_pos hcond]
      refine ⟨?_, ?_, ?_, ?_⟩
      · exact isEnabledCompute_activities s u
      · exact isEnabledCompute_activeTransaction s u
      · exact isEnabledCompute_events s u
      · show (isEnabledCompute s u).2.timers.filter
            (fun t => t.tid ≠ (isEnabledCompute s u).2.debounce) ++
            [{ tid := (isEnabledCompute s u).2.nextTimerId,
               remaining := (isEnabledCompute s u).2.options.idleTimeout,
               task := TimerTask.finishIdle }] = _
        rw [isEnabledCompute_timers, isEnabledCompute_debounce,
          isEnabledCompute_nextTimerId, isEnabledCompute_options]
    · have hcond2 : ¬((isEnabledCompute s u).2.activities.length = 0 ∧
          (isEnabledCompute s u).2.activeTransaction.isSome = true) := by
        rw [isEnabledCompute_activities, isEnabledCompute_activeTransaction]
        exact hcond
      rw [popReschedule_noSchedule hcond2, if_neg hcond]
      refine ⟨?_, ?_, ?_, ?_⟩
      · exact isEnabledCompute_activities s u
      · exact isEnabledCompute_activeTransaction s u
      · exact isEnabledCompute_events s u
      · show (isEnabledCompute s u).2.timers.filter
            (fun t => t.tid ≠ (isEnabledCompute s u).2.debounce) = _
        rw [isEnabledCompute_timers, isEnabledCompute_debounce]

/-- C1 witness: the amended behavior evaluated at the reachable state `sB4`
with the absent id `7`. -/
theorem C1_witness :
    (popActivity sB4 0 7 none).activities = sB4.activities ∧
    (popActivity sB4 0 7 none).activeTransaction = sB4.activeTransaction ∧
    (popActivity sB4 0 7 none).events = sB4.events ∧
    (popActivity sB4 0 7 none).timers =
      (if sB4.activities.length = 0 ∧ sB4.activeTransaction.isSome = true then
        sB4.timers.filter (fun t => t.tid ≠ sB4.debounce) ++
          [{ tid := sB4.nextTimerId, remaining := sB4.options.idleTimeout,
             task := TimerTask.finishIdle }]
       else sB4.timers.filter (fun t => t.tid ≠ sB4.debounce)) :=
  (C1_popActivity_redundant sB4 0 7 none).2 (by decide) (by decide) (by decide)

/-- C2 counterexample: start a transaction, push an `xhr` activity (id `2`)
and, without popping it, start a second transaction: the old activity is
still in the registry after the new transaction (span `3`) is bound, so the
registry is not cleared wholesale on a fresh `startIdleTransaction`. -/
theorem C2_counterexample :
    Reachable sA3 ∧
    (2, ({ name := "xhr", span := some 2 } : Activity)) ∈ sA3.activities ∧
    (startIdleTransaction sA3 0 "navigation" none).1 = some 3 ∧
    sA4.activeTransaction = some 3 ∧
    (2, ({ name := "xhr", span := some 2 } : Activity)) ∈ sA4.activities :=
  ⟨reachable_sA3, by decide, by decide, by decide, by decide⟩

/-- C2 (amended): `startIdleTransaction` never clears the activity registry:
every previously registered activity is still registered after the call (the
registry is cleared wholesale only by the background discard). -/
theorem C2_start_preserves_registry (s : TracingState) (hs : Reachable s) (u : ℚ)
    (n : String) (c : Option SpanContext) :
    ∀ p ∈ s.activities, p ∈ (startIdleTransaction s u n c).2.activities := by
  intro p hp
  have hinv := reachable_inv hs
  by_cases hc1 : (isEnabledCompute s u).1 = false
  · rw [startIdleTransaction_disabled hc1]
    show p ∈ (isEnabledCompute s u).2.activities
    rw [isEnabledCompute_activities]
    exact hp
  · by_cases hg : (finishIdleTransaction (isEnabledCompute s u).2).hasGetter = false
    · rw [startIdleTransaction_noGetter hc1 hg]
      show p ∈ (finishIdleTransaction (isEnabledCompute s u).2).activities
      rw [finishIdleTransaction_activities, isEnabledCompute_activities]
      exact hp
    · by_cases hh : (finishIdleTransaction (isEnabledCompute s u).2).hubOk = false
      · rw [startIdleTransaction_noHub hc1 hg hh]
        show p ∈ (finishIdleTransaction (isEnabledCompute s u).2).activities
        rw [finishIdleTransaction_activities, isEnabledCompute_activities]
        exact hp
      · rw [startIdleTransaction_main hc1 hg hh]
        show p ∈ (startBootstrap
          (startBind (finishIdleTransaction (isEnabledCompute s u).2)).2 u).activities
        set sX := (startBind (finishIdleTransaction (isEnabledCompute s u).2)).2 with hsX
        have hpx : p ∈ sX.activities := by
          rw [hsX, startBind_snd]
          show p ∈ (finishIdleTransaction (isEnabledCompute s u).2).activities
          rw [finishIdleTransaction_activities, isEnabledCompute_activities]
          exact hp
        have hXen : sX.enabled = some true := by
          rw [hsX, startBind_snd]
          show (finishIdleTransaction (isEnabledCompute s u).2).enabled = some true
          rw [finishIdleTransaction_enabled]
          exact isEnabledCompute_true_cache (bool_true_of_not_false hc1)
        have hen : (isEnabledCompute sX u).1 = true := by
          rw [isEnabledCompute_cached hXen]
        have htx : ¬(isEnabledCompute sX u).2.activeTransaction = none := by
          rw [isEnabledCompute_cached hXen]
          rw [hsX, startBind_snd]
          intro hcon
          exact Option.noConfusion hcon
        unfold startBootstrap
        show p ∈ (pushActivity sX u "idleTransactionStarted" none none).2.activities
        rw [pushActivity_main (by rw [hen]; intro hfalse; exact Bool.noConfusion hfalse) htx]
        rw [pushFinish_snd]
        show p ∈ (pushWithAutoPop (pushStore (clearTimeoutState (isEnabledCompute sX u).2
          (isEnabledCompute sX u).2.debounce) "idleTransactionStarted" none) none).activities
        rw [pushWithAutoPop_none]
        rw [pushStore_plain (by simp)]
        show p ∈ regInsert (clearTimeoutState (isEnabledCompute sX u).2
          (isEnabledCompute sX u).2.debounce).activities
          (clearTimeoutState (isEnabledCompute sX u).2
            (isEnabledCompute sX u).2.debounce).currentIndex
          ⟨"idleTransactionStarted", none⟩
        rw [isEnabledCompute_cached hXen]
        show p ∈ regInsert sX.activities sX.currentIndex ⟨"idleTransactionStarted", none⟩
        have hfresh : regLookup sX.activities sX.currentIndex = none := by
          apply regLookup_eq_none_of_bound
          intro q hq
          have hinvX : Inv sX := by
            rw [hsX]
            apply inv_startBind (inv_finishIdleTransaction (inv_isEnabledCompute hinv u))
            · revert hg
              cases (finishIdleTransaction (isEnabledCompute s u).2).hasGetter <;> simp
            · revert hh
              cases (finishIdleTransaction (isEnabledCompute s u).2).hubOk <;> simp
          exact hinvX.keyBound q hq
        rw [regInsert_of_fresh hfresh]
        exact List.mem_append_left _ hpx

/-- C2 witness: the amended preservation evaluated at the reachable state
`sA3`, whose `xhr` activity survives the replacing `startIdleTransaction`. -/
theorem C2_witness :
    (2, ({ name := "xhr", span := some 2 } : Activity)) ∈
      (startIdleTransaction sA3 0 "navigation" none).2.activities :=
  C2_start_preserves_registry sA3 reachable_sA3 0 "navigation" none
    (2, ({ name := "xhr", span := some 2 } : Activity)) (by decide)

/-- C3 counterexample: at the reachable state `sA2` a transaction (span `1`)
is active; `finishIdleTransaction` does not clear the active-transaction
reference (the claim says it does), and calling it twice finishes the same
transaction twice. -/
theorem C3_counterexample :
    Reachable sA2 ∧
    sA2.activeTransaction = some 1 ∧
    (finishIdleTransaction sA2).activeTransaction ≠ none ∧
    finishEventsFor 1 (finishIdleTransaction (finishIdleTransaction sA2)).events =
      [Effect.finishSpan 1 true, Effect.finishSpan 1 true] :=
  ⟨reachable_sA2, by decide, by decide, by decide⟩

/-- C3 (amended): `finishIdleTransaction`, when a transaction is active,
finishes it with the use-latest-descendant-span-end flag but does not clear
the active-transaction reference; when no transaction is active it is a
no-op; consequently a second call in a row finishes the same transaction a
second time. -/
theorem C3_finishIdleTransaction_spec (s : TracingState) :
    (∀ t, s.activeTransaction = some t →
      finishIdleTransaction s =
        { s with events := s.events ++ [Effect.finishSpan t true] } ∧
      (finishIdleTransaction s).activeTransaction = some t ∧
      (finishIdleTransaction (finishIdleTransaction s)).events =
        s.events ++ [Effect.finishSpan t true] ++ [Effect.finishSpan t true]) ∧
    (s.activeTransaction = none → finishIdleTransaction s = s) := by
  constructor
  · intro t ht
    have h1 := finishIdleTransaction_some ht
    have hact : (finishIdleTransaction s).activeTransaction = some t := by
      rw [finishIdleTransaction_activeTransaction]
      exact ht
    refine ⟨h1, hact, ?_⟩
    rw [finishIdleTransaction_some hact, h1]
  · intro h
    exact finishIdleTransaction_none h

/-- C3 witness: the amended specification evaluated at the concrete reachable
state `sA2`. -/
theorem C3_witness :
    finishIdleTransaction sA2 =
      { sA2 with events := sA2.events ++ [Effect.finishSpan 1 true] } ∧
    (finishIdleTransaction sA2).activeTransaction = some 1 ∧
    (finishIdleTransaction (finishIdleTransaction sA2)).events =
      sA2.events ++ [Effect.finishSpan 1 true] ++ [Effect.finishSpan 1 true] :=
  (C3_finishIdleTransaction_spec sA2).1 1 (by decide)

/-- C4 counterexample: with the default 600 s limit, a transaction event with
`timestamp = 0` and `start_timestamp = 5` has duration `-5 < 0`, so the claim
says it is dropped; the processor passes it, because a `0` timestamp is falsy
in the `event.timestamp && event.start_timestamp && ...` guard. -/
theorem C4_counterexample :
    (600 : ℤ) ≠ 0 ∧
    (0 : ℤ) - 5 < 0 ∧
    maxDurationProcessor true true 600 ⟨some "transaction", some 0, some 5⟩ =
      some ⟨some "transaction", some 0, some 5⟩ :=
  ⟨by decide, by decide, by decide⟩

/-- C4 (amended): for every transaction event carrying two nonzero
timestamps, the processor drops it exactly when `maxTransactionDuration ≠ 0`
and the duration exceeds it or is negative; an event with a zero timestamp is
treated as if the timestamp were absent and always passes; with
`maxTransactionDuration = 0` every event passes unfiltered. -/
theorem C4_maxDuration_filter (maxDur : ℤ) (e : SentryEvent) (ts st : ℤ)
    (hty : e.evType = some "transaction")
    (hts : e.timestamp = some ts) (hst : e.start_timestamp = some st)
    (hts0 : ts ≠ 0) (hst0 : st ≠ 0) :
    (maxDurationProcessor true true maxDur e = none ↔
      (maxDur ≠ 0 ∧ (ts - st > maxDur ∨ ts - st < 0))) ∧
    (∀ e2 : SentryEvent, maxDurationProcessor true true 0 e2 = some e2) := by
  constructor
  · have hproc : maxDurationProcessor true true maxDur e =
        (if (decide (maxDur ≠ 0) &&
            (decide (ts - st > maxDur) || decide (ts - st < 0))) = true then none
         else some e) := by
      unfold maxDurationProcessor
      simp only [hts, hst, hty, if_neg hts0, if_neg hst0]
      simp
    rw [hproc]
    by_cases hcond : maxDur ≠ 0 ∧ (ts - st > maxDur ∨ ts - st < 0)
    · rw [if_pos (by
        simp only [Bool.and_eq_true, Bool.or_eq_true, decide_eq_true_eq]
        exact ⟨hcond.1, hcond.2⟩)]
      exact iff_of_true rfl hcond
    · rw [if_neg (by
        intro hb
        apply hcond
        simp only [Bool.and_eq_true, Bool.or_eq_true, decide_eq_true_eq] at hb
        exact hb)]
      exact iff_of_false (fun h => Option.noConfusion h) hcond
  · intro e2
    unfold maxDurationProcessor
    simp

/-- C4 witness: the amended filter evaluated at the Scenario E numbers: a
602-second event against a 600-second limit is dropped; with the limit `0`
even a 10000-second event passes. -/
theorem C4_witness :
    ((maxDurationProcessor true true 600 ⟨some "transaction", some 602, some 1⟩ = none ↔
      ((600 : ℤ) ≠ 0 ∧ ((602 : ℤ) - 1 > 600 ∨ (602 : ℤ) - 1 < 0))) ∧
    (∀ e2 : SentryEvent, maxDurationProcessor true true 0 e2 = some e2)) ∧
    maxDurationProcessor true true 600 ⟨some "transaction", some 602, some 1⟩ = none ∧
    maxDurationProcessor true true 0 ⟨some "transaction", some 10000, some 1⟩ =
      some ⟨some "transaction", some 10000, some 1⟩ :=
  ⟨C4_maxDuration_filter 600 ⟨some "transaction", some 602, some 1⟩ 602 1
      rfl rfl rfl (by decide) (by decide),
    by decide, by decide⟩

/-- C5: the enablement gate: the first call with a valid sample rate
`r ∈ [0,1]` configured draws `u`, returns `u ≤ r` and caches it, and a
second call returns the cache regardless of its own draw; a cached gate
always returns the cache unchanged; with no valid configuration the gate
returns `false` without caching, and a later call once a valid rate is
configured still performs the real draw. -/
theorem C5_enablement_gate (s : TracingState) (u u' : ℚ) (r : ℚ) (b : Bool)
    (_hr01 : 0 ≤ r ∧ r ≤ 1) :
    (s.enabled = none → s.options.tracesSampleRate = some r →
      isEnabledCompute s u =
        (decide (u ≤ r), { s with enabled := some (decide (u ≤ r)) }) ∧
      isEnabledCompute { s with enabled := some (decide (u ≤ r)) } u' =
        (decide (u ≤ r), { s with enabled := some (decide (u ≤ r)) })) ∧
    (s.enabled = some b → isEnabledCompute s u = (b, s)) ∧
    (s.enabled = none → s.options.tracesSampleRate = none →
      isEnabledCompute s u = (false, s) ∧
      (∀ o2 : TracingOptions, o2.tracesSampleRate = some r →
        isEnabledCompute { s with options := o2 } u' =
          (decide (u' ≤ r),
            { s with options := o2, enabled := some (decide (u' ≤ r)) }))) := by
  refine ⟨?_, ?_, ?_⟩
  · intro h1 h2
    constructor
    · simp only [isEnabledCompute, h1, h2]
      by_cases hu : u > r
      · rw [if_pos hu]
        have hd : decide (u ≤ r) = false := decide_eq_false (not_le.mpr hu)
        rw [hd]
      · rw [if_neg hu]
        have hd : decide (u ≤ r) = true := decide_eq_true (not_lt.mp hu)
        rw [hd]
    · exact isEnabledCompute_cached rfl u'
  · intro hb
    exact isEnabledCompute_cached hb u
  · intro h1 h2
    constructor
    · simp only [isEnabledCompute, h1, h2]
    · intro o2 ho2
      simp only [isEnabledCompute, h1, ho2]
      by_cases hu : u' > r
      · rw [if_pos hu]
        have hd : decide (u' ≤ r) = false := decide_eq_false (not_le.mpr hu)
        rw [hd]
      · rw [if_neg hu]
        have hd : decide (u' ≤ r) = true := decide_eq_true (not_lt.mp hu)
        rw [hd]

/-- C6: `pushActivity` returns `0` exactly when tracing is disabled (the gate
evaluates `false` at this call) or no transaction is active, changing nothing
in the controller state in that case; otherwise it returns the freshly
allocated index (always positive, never previously registered), increments
the counter, and stores at that index an activity holding a child span of the
active transaction when a span context is given (the span-start call carries
the active transaction as the ambient scope parent) and a span-less marker
otherwise. -/
theorem C6_pushActivity_contract (s : TracingState) (hs : Reachable s) (u : ℚ)
    (n : String) (c : Option SpanContext) (a : Option ℤ) :
    ((pushActivity s u n c a).1 = 0 ↔
      ((isEnabledCompute s u).1 = false ∨ s.activeTransaction = none)) ∧
    ((pushActivity s u n c a).1 = 0 →
      ctrlView (pushActivity s u n c a).2 = ctrlView s) ∧
    ((pushActivity s u n c a).1 ≠ 0 →
      0 < (pushActivity s u n c a).1 ∧
      (pushActivity s u n c a).1 = s.currentIndex ∧
      (pushActivity s u n c a).2.currentIndex = s.currentIndex + 1 ∧
      regLookup s.activities (pushActivity s u n c a).1 = none ∧
      (c.isSome = true →
        regLookup (pushActivity s u n c a).2.activities s.currentIndex =
          some ⟨n, some s.hub.nextSpanId⟩ ∧
        Effect.startSpan s.hub.nextSpanId s.activeTransaction false ∈
          (pushActivity s u n c a).2.events) ∧
      (c = none →
        regLookup (pushActivity s u n c a).2.activities s.currentIndex =
          some ⟨n, none⟩)) := by
  have hinv := reachable_inv hs
  by_cases hc1 : (isEnabledCompute s u).1 = false
  · rw [pushActivity_disabled hc1]
    exact ⟨iff_of_true rfl (Or.inl hc1),
      fun _ => isEnabledCompute_ctrlView s u,
      fun h0 => absurd rfl h0⟩
  · by_cases hc2 : (isEnabledCompute s u).2.activeTransaction = none
    · rw [pushActivity_noTx hc1 hc2]
      have hs2 : s.activeTransaction = none := by
        rw [← isEnabledCompute_activeTransaction s u]
        exact hc2
      exact ⟨iff_of_true rfl (Or.inr hs2),
        fun _ => isEnabledCompute_ctrlView s u,
        fun h0 => absurd rfl h0⟩
    · rw [pushActivity_main hc1 hc2]
      have hfst : (pushFinish (pushWithAutoPop
          (pushStore (clearTimeoutState (isEnabledCompute s u).2
            (isEnabledCompute s u).2.debounce) n c) a)).1 = s.currentIndex := by
        rw [pushFinish_fst, pushWithAutoPop_currentIndex, pushStore_currentIndex,
          clearTimeoutState_currentIndex]
        exact isEnabledCompute_currentIndex s u
      have hpos := hinv.idxPos
      have htxs : s.activeTransaction.isSome = true := by
        rw [← isEnabledCompute_activeTransaction s u]
        exact Option.isSome_iff_ne_none.mpr hc2
      have hgh := hinv.txHub htxs
      refine ⟨?_, ?_, ?_⟩
      · rw [hfst]
        apply iff_of_false
        · intro h0
          omega
        · intro hor
          rcases hor with h | h
          · exact hc1 h
          · apply hc2
            rw [isEnabledCompute_activeTransaction]
            exact h
      · intro h0
        exfalso
        rw [hfst] at h0
        omega
      · intro _
        refine ⟨by rw [hfst]; omega, hfst, ?_, ?_, ?_, ?_⟩
        · rw [pushFinish_snd]
          show (pushWithAutoPop (pushStore (clearTimeoutState (isEnabledCompute s u).2
            (isEnabledCompute s u).2.debounce) n c) a).currentIndex + 1 =
            s.currentIndex + 1
          rw [pushWithAutoPop_currentIndex, pushStore_currentIndex,
            clearTimeoutState_currentIndex, isEnabledCompute_currentIndex]
        · rw [hfst]
          exact regLookup_eq_none_of_bound hinv.keyBound
        · intro hcs
          have hget : (clearTimeoutState (isEnabledCompute s u).2
              (isEnabledCompute s u).2.debounce).hasGetter = true := by
            rw [clearTimeoutState_hasGetter, isEnabledCompute_hasGetter]
            exact hgh.1
          have hhub : (clearTimeoutState (isEnabledCompute s u).2
              (isEnabledCompute s u).2.debounce).hubOk = true := by
            rw [clearTimeoutState_hubOk, isEnabledCompute_hubOk]
            exact hgh.2
          rw [pushFinish_snd]
          rw [pushStore_withSpan ⟨hcs, hget⟩ hhub]
          obtain ⟨t, htv⟩ := Option.isSome_iff_exists.mp htxs
          have hscope : s.hub.scopeSpan = s.activeTransaction := by
            rw [hinv.scopeTx t htv, htv]
          have hCact : (clearTimeoutState (isEnabledCompute s u).2
              (isEnabledCompute s u).2.debounce).activities = s.activities := by
            rw [clearTimeoutState_activities, isEnabledCompute_activities]
          have hChub : (clearTimeoutState (isEnabledCompute s u).2
              (isEnabledCompute s u).2.debounce).hub = s.hub := by
            rw [clearTimeoutState_hub, isEnabledCompute_hub]
          have hCidx : (clearTimeoutState (isEnabledCompute s u).2
              (isEnabledCompute s u).2.debounce).currentIndex = s.currentIndex := by
            rw [clearTimeoutState_currentIndex, isEnabledCompute_currentIndex]
          have hCev : (clearTimeoutState (isEnabledCompute s u).2
              (isEnabledCompute s u).2.debounce).events = s.events := by
            rw [clearTimeoutState_events, isEnabledCompute_events]
          constructor
          · show regLookup (pushWithAutoPop _ a).activities s.currentIndex = _
            rw [pushWithAutoPop_activities]
            show regLookup (regInsert _ _ _) s.currentIndex = _
            rw [hCact, hChub, hCidx]
            rw [regInsert_of_fresh (regLookup_eq_none_of_bound hinv.keyBound)]
            exact regLookup_append_self _ _ _
              (regLookup_eq_none_of_bound hinv.keyBound)
          · show Effect.startSpan s.hub.nextSpanId s.activeTransaction false ∈
              (pushWithAutoPop _ a).events
            rw [pushWithAutoPop_events]
            show Effect.startSpan s.hub.nextSpanId s.activeTransaction false ∈
              (clearTimeoutState (isEnabledCompute s u).2
                (isEnabledCompute s u).2.debounce).events ++
                [Effect.startSpan (clearTimeoutState (isEnabledCompute s u).2
                  (isEnabledCompute s u).2.debounce).hub.nextSpanId
                  (clearTimeoutState (isEnabledCompute s u).2
                    (isEnabledCompute s u).2.debounce).hub.scopeSpan false]
            rw [hCev, hChub, hscope]
            exact List.mem_append_right _ (List.mem_singleton.mpr rfl)
        · intro hcn
          subst hcn
          rw [pushFinish_snd]
          rw [pushStore_plain (by simp)]
          show regLookup (pushWithAutoPop _ a).activities s.currentIndex = _
          rw [pushWithAutoPop_activities]
          show regLookup (regInsert (clearTimeoutState (isEnabledCompute s u).2
            (isEnabledCompute s u).2.debounce).activities
            (clearTimeoutState (isEnabledCompute s u).2
              (isEnabledCompute s u).2.debounce).currentIndex ⟨n, none⟩)
            s.currentIndex = _
          rw [clearTimeoutState_activities, isEnabledCompute_activities,
            clearTimeoutState_currentIndex, isEnabledCompute_currentIndex]
          rw [regInsert_of_fresh (regLookup_eq_none_of_bound hinv.keyBound)]
          exact regLookup_append_self _ _ _
            (regLookup_eq_none_of_bound hinv.keyBound)

/-- C6 witness: the contract evaluated at the reachable state `sA2` for an
`xhr` push with a span context. -/
theorem C6_witness :
    ((pushActivity sA2 0 "xhr" (some ⟨"http"⟩) none).1 = 0 ↔
      ((isEnabledCompute sA2 0).1 = false ∨ sA2.activeTransaction = none)) ∧
    ((pushActivity sA2 0 "xhr" (some ⟨"http"⟩) none).1 = 0 →
      ctrlView (pushActivity sA2 0 "xhr" (some ⟨"http"⟩) none).2 = ctrlView sA2) ∧
    ((pushActivity sA2 0 "xhr" (some ⟨"http"⟩) none).1 ≠ 0 →
      0 < (pushActivity sA2 0 "xhr" (some ⟨"http"⟩) none).1 ∧
      (pushActivity sA2 0 "xhr" (some ⟨"http"⟩) none).1 = sA2.currentIndex ∧
      (pushActivity sA2 0 "xhr" (some ⟨"http"⟩) none).2.currentIndex =
        sA2.currentIndex + 1 ∧
      regLookup sA2.activities (pushActivity sA2 0 "xhr" (some ⟨"http"⟩) none).1 =
        none ∧
      ((some (⟨"http"⟩ : SpanContext)).isSome = true →
        regLookup (pushActivity sA2 0 "xhr" (some ⟨"http"⟩) none).2.activities
          sA2.currentIndex = some ⟨"xhr", some sA2.hub.nextSpanId⟩ ∧
        Effect.startSpan sA2.hub.nextSpanId sA2.activeTransaction false ∈
          (pushActivity sA2 0 "xhr" (some ⟨"http"⟩) none).2.events) ∧
      (some (⟨"http"⟩ : SpanContext) = none →
        regLookup (pushActivity sA2 0 "xhr" (some ⟨"http"⟩) none).2.activities
          sA2.currentIndex = some ⟨"xhr", none⟩)) :=
  C6_pushActivity_contract sA2 reachable_sA2 0 "xhr" (some ⟨"http"⟩) none

/-- C5 witness: the gate evaluated at page load with the default rate `1` and
draw `0`: the first call returns `true` and caches it, and the second call
returns the cache. -/
theorem C5_witness :
    isEnabledCompute sA0 0 =
      (decide ((0 : ℚ) ≤ 1), { sA0 with enabled := some (decide ((0 : ℚ) ≤ 1)) }) ∧
    isEnabledCompute { sA0 with enabled := some (decide ((0 : ℚ) ≤ 1)) } 0 =
      (decide ((0 : ℚ) ≤ 1), { sA0 with enabled := some (decide ((0 : ℚ) ≤ 1)) }) :=
  (C5_enablement_gate sA0 0 0 1 true (by decide)).1 (by decide) (by decide)

/-- C7: on a became-hidden signal with the discard policy enabled and a
transaction active, the transaction reference and the whole registry are
cleared without emitting anything and without touching the timers; no finish
call for the discarded transaction is ever recorded along any continuation of
the run; and a pending finish timer firing after the discard only removes
itself (the no-transaction check happens at fire time). -/
theorem C7_background_discard (s : TracingState) (hs : Reachable s) (u : ℚ) (tx : Nat)
    (_hd : s.options.discardBackgroundSpans = true)
    (ht : s.activeTransaction = some tx) :
    (discardOnHidden s true).activeTransaction = none ∧
    (discardOnHidden s true).activities = [] ∧
    (discardOnHidden s true).events = s.events ∧
    (discardOnHidden s true).timers = s.timers ∧
    (∀ s2, Relation.ReflTransGen Step (discardOnHidden s true) s2 →
      finishEventsFor tx s2.events = finishEventsFor tx s.events) ∧
    (∀ t ∈ (discardOnHidden s true).timers, t.task = TimerTask.finishIdle →
      fireTimer (discardOnHidden s true) u t =
        clearTimeoutState (discardOnHidden s true) t.tid) := by
  have hinv := reachable_inv hs
  have hiso : s.activeTransaction.isSome = true := by rw [ht]; rfl
  have hda := discardOnHidden_active hiso
  have hnr : NoRef tx (discardOnHidden s true) := by
    rw [hda]
    refine ⟨?_, ?_, ?_⟩
    · intro hcon
      exact Option.noConfusion hcon
    · intro p hp
      exact absurd hp (List.not_mem_nil p)
    · show tx < s.hub.nextSpanId
      exact hinv.spanBound tx ht
  refine ⟨by rw [hda], by rw [hda], by rw [hda], by rw [hda], ?_, ?_⟩
  · intro s2 htrace
    have hnt := noref_trace htrace hnr
    rw [hnt.2, hda]
  · intro t htm htk
    unfold fireTimer
    rw [htk]
    show finishIdleTransaction (clearTimeoutState (discardOnHidden s true) t.tid) = _
    apply finishIdleTransaction_none
    rw [clearTimeoutState_activeTransaction, hda]

/-- C7 witness: the discard behavior evaluated at the reachable state `sA2`
(transaction span `1` active under the default options). -/
theorem C7_witness :
    (discardOnHidden sA2 true).activeTransaction = none ∧
    (discardOnHidden sA2 true).activities = [] ∧
    (discardOnHidden sA2 true).events = sA2.events ∧
    (discardOnHidden sA2 true).timers = sA2.timers ∧
    (∀ s2, Relation.ReflTransGen Step (discardOnHidden sA2 true) s2 →
      finishEventsFor 1 s2.events = finishEventsFor 1 sA2.events) ∧
    (∀ t ∈ (discardOnHidden sA2 true).timers, t.task = TimerTask.finishIdle →
      fireTimer (discardOnHidden sA2 true) 0 t =
        clearTimeoutState (discardOnHidden sA2 true) t.tid) :=
  C7_background_discard sA2 reachable_sA2 0 1 (by decide) (by decide)

/-- C8 counterexample: with `idleTimeout` configured to `0`, the bootstrap
auto-pop of a successful `startIdleTransaction` is scheduled after 100 ms —
because the source computes the delay as `(options.idleTimeout) || 100` — not
after the configured idle-timeout duration of `0`. -/
theorem C8_counterexample :
    zeroIdleOpts.idleTimeout = 0 ∧
    Reachable sD2 ∧
    (startIdleTransaction sD1 0 "pageload" none).1 = some 1 ∧
    sD2.timers = [{ tid := 1, remaining := 100, task := TimerTask.bootstrapPop 1 }] ∧
    (100 : ℤ) ≠ zeroIdleOpts.idleTimeout :=
  ⟨by decide, reachable_sD2, by decide, by decide, by decide⟩

/-- C8 (amended): every successful `startIdleTransaction` registers the
internal bootstrap activity `idleTransactionStarted` at the current index and
schedules a timer popping exactly that activity after the configured
idle-timeout — except that a configured idle-timeout of `0` is falsy in
`(options.idleTimeout) || 100`, so the delay is then 100 ms. -/
theorem C8_bootstrap (s : TracingState) (hs : Reachable s) (u : ℚ) (n : String)
    (c : Option SpanContext) (tx : Nat)
    (hsucc : (startIdleTransaction s u n c).1 = some tx) :
    regLookup (startIdleTransaction s u n c).2.activities s.currentIndex =
      some ⟨"idleTransactionStarted", none⟩ ∧
    ∃ t, t ∈ (startIdleTransaction s u n c).2.timers ∧
      t.task = TimerTask.bootstrapPop s.currentIndex ∧
      t.remaining = (if s.options.idleTimeout = 0 then 100 else s.options.idleTimeout) := by
  have hinv := reachable_inv hs
  by_cases hc1 : (isEnabledCompute s u).1 = false
  · rw [startIdleTransaction_disabled hc1] at hsucc
    exact absurd hsucc (by simp)
  · by_cases hg : (finishIdleTransaction (isEnabledCompute s u).2).hasGetter = false
    · rw [startIdleTransaction_noGetter hc1 hg] at hsucc
      exact absurd hsucc (by simp)
    · by_cases hh : (finishIdleTransaction (isEnabledCompute s u).2).hubOk = false
      · rw [startIdleTransaction_noHub hc1 hg hh] at hsucc
        exact absurd hsucc (by simp)
      · rw [startIdleTransaction_main hc1 hg hh]
        set sX := (startBind (finishIdleTransaction (isEnabledCompute s u).2)).2 with hsX
        have hXinv : Inv sX := by
          rw [hsX]
          apply inv_startBind (inv_finishIdleTransaction (inv_isEnabledCompute hinv u))
          · revert hg
            cases (finishIdleTransaction (isEnabledCompute s u).2).hasGetter <;> simp
          · revert hh
            cases (finishIdleTransaction (isEnabledCompute s u).2).hubOk <;> simp
        have hXen : sX.enabled = some true := by
          rw [hsX, startBind_snd]
          show (finishIdleTransaction (isEnabledCompute s u).2).enabled = some true
          rw [finishIdleTransaction_enabled]
          exact isEnabledCompute_true_cache (bool_true_of_not_false hc1)
        have hXtx : ¬(isEnabledCompute sX u).2.activeTransaction = none := by
          rw [isEnabledCompute_cached hXen]
          rw [hsX, startBind_snd]
          intro hcon
          exact Option.noConfusion hcon
        have hXidx : sX.currentIndex = s.currentIndex := by
          rw [hsX, startBind_snd]
          show (finishIdleTransaction (isEnabledCompute s u).2).currentIndex = _
          rw [finishIdleTransaction_currentIndex, isEnabledCompute_currentIndex]
        have hXopts : sX.options = s.options := by
          rw [hsX, startBind_snd]
          show (finishIdleTransaction (isEnabledCompute s u).2).options = _
          rw [finishIdleTransaction_options, isEnabledCompute_options]
        have hXen1 : ¬(isEnabledCompute sX u).1 = false := by
          rw [isEnabledCompute_cached hXen]
          intro hf
          exact Bool.noConfusion hf
        have hlookX : regLookup sX.activities sX.currentIndex = none :=
          regLookup_eq_none_of_bound hXinv.keyBound
        have hact : (pushActivity sX u "idleTransactionStarted" none none).2.activities =
            sX.activities ++ [(sX.currentIndex, ⟨"idleTransactionStarted", none⟩)] := by
          rw [pushActivity_main hXen1 hXtx, pushFinish_snd]
          show (pushWithAutoPop (pushStore (clearTimeoutState (isEnabledCompute sX u).2
            (isEnabledCompute sX u).2.debounce) "idleTransactionStarted" none)
            none).activities = _
          rw [pushWithAutoPop_none, pushStore_plain (by simp)]
          show regInsert (clearTimeoutState (isEnabledCompute sX u).2
              (isEnabledCompute sX u).2.debounce).activities
            (clearTimeoutState (isEnabledCompute sX u).2
              (isEnabledCompute sX u).2.debounce).currentIndex
            ⟨"idleTransactionStarted", none⟩ = _
          rw [clearTimeoutState_activities, clearTimeoutState_currentIndex,
            isEnabledCompute_cached hXen]
          show regInsert sX.activities sX.currentIndex ⟨"idleTransactionStarted", none⟩ = _
          rw [regInsert_of_fresh hlookX]
        have hpid : (pushActivity sX u "idleTransactionStarted" none none).1 =
            s.currentIndex := by
          rw [pushActivity_main hXen1 hXtx, pushFinish_fst, pushWithAutoPop_currentIndex,
            pushStore_currentIndex, clearTimeoutState_currentIndex,
            isEnabledCompute_cached hXen]
          show sX.currentIndex = s.currentIndex
          exact hXidx
        have hopt : (pushActivity sX u "idleTransactionStarted" none none).2.options =
            s.options := by
          rw [pushActivity_main hXen1 hXtx, pushFinish_snd]
          show (pushWithAutoPop (pushStore (clearTimeoutState (isEnabledCompute sX u).2
            (isEnabledCompute sX u).2.debounce) "idleTransactionStarted" none)
            none).options = _
          rw [pushWithAutoPop_options, pushStore_options]
          show (isEnabledCompute sX u).2.options = _
          rw [isEnabledCompute_cached hXen]
          show sX.options = s.options
          exact hXopts
        unfold startBootstrap
        constructor
        · show regLookup (pushActivity sX u "idleTransactionStarted" none none).2.activities
            s.currentIndex = _
          rw [hact, ← hXidx]
          exact regLookup_append_self _ _ _ hlookX
        · obtain ⟨t, htm, htask, hrem⟩ := scheduleTimer_mem_new
            (pushActivity sX u "idleTransactionStarted" none none).2
            (TimerTask.bootstrapPop (pushActivity sX u "idleTransactionStarted" none none).1)
            (if (pushActivity sX u "idleTransactionStarted"
                none none).2.options.idleTimeout = 0 then 100
             else (pushActivity sX u "idleTransactionStarted" none none).2.options.idleTimeout)
          exact ⟨t, htm, by rw [htask, hpid], by rw [hrem, hopt]⟩

/-- C9: at most one pending finish timer is outstanding in any reachable
state; a `pushActivity` that allocates an id leaves no pending finish timer
at all; a `popActivity` that passes its guards cancels every previously
pending finish timer, and the only finish timer it may leave is a freshly
scheduled one, present exactly when the registry ended up empty while a
transaction is active; and no other operation ever schedules a finish
timer. -/
theorem C9_single_finish_timer :
    (∀ s : TracingState, Reachable s → (finishTimers s.timers).length ≤ 1) ∧
    (∀ (s : TracingState) (u : ℚ) (n : String) (c : Option SpanContext) (a : Option ℤ),
      Reachable s → (pushActivity s u n c a).1 ≠ 0 →
      finishTimers (pushActivity s u n c a).2.timers = []) ∧
    (∀ (s : TracingState) (u : ℚ) (id : Nat) (sd : Option (List (String × String))),
      Reachable s → (isEnabledCompute s u).1 = true → id ≠ 0 →
      (∀ t ∈ finishTimers (popActivity s u id sd).timers,
        t ∉ s.timers ∧ t.tid = s.nextTimerId ∧ t.remaining = s.options.idleTimeout) ∧
      (finishTimers (popActivity s u id sd).timers ≠ [] ↔
        ((popActivity s u id sd).activities.length = 0 ∧
          s.activeTransaction.isSome = true))) ∧
    (∀ (s : TracingState) (u : ℚ) (n : String) (c : Option SpanContext) (a : Option ℤ)
      (t : Timer), t ∈ (pushActivity s u n c a).2.timers →
      t.task = TimerTask.finishIdle → t ∈ s.timers) ∧
    (∀ (s : TracingState) (u : ℚ) (n : String) (c : Option SpanContext) (t : Timer),
      t ∈ (startIdleTransaction s u n c).2.timers →
      t.task = TimerTask.finishIdle → t ∈ s.timers) ∧
    (∀ s : TracingState, (finishIdleTransaction s).timers = s.timers) ∧
    (∀ (s : TracingState) (st : String), (setTransactionStatus s st).timers = s.timers) ∧
    (∀ (s : TracingState) (hid : Bool), (discardOnHidden s hid).timers = s.timers) ∧
    (∀ (s : TracingState) (d : ℤ),
      (advanceTime s d).timers.map (fun t => (t.tid, t.task)) =
        s.timers.map (fun t => (t.tid, t.task))) := by
  refine ⟨?_, ?_, ?_, ?_, ?_, ?_, ?_, ?_, ?_⟩
  · intro s hs
    exact inv_finishTimers_length (reachable_inv hs)
  · intro s u n c a hs hne
    by_cases hc1 : (isEnabledCompute s u).1 = false
    · rw [pushActivity_disabled hc1] at hne
      exact absurd rfl hne
    · by_cases hc2 : (isEnabledCompute s u).2.activeTransaction = none
      · rw [pushActivity_noTx hc1 hc2] at hne
        exact absurd rfl hne
      · rw [pushActivity_main hc1 hc2]
        have h2 := inv_isEnabledCompute (reachable_inv hs) u
        rw [pushFinish_snd]
        show finishTimers (pushWithAutoPop (pushStore (clearTimeoutState
          (isEnabledCompute s u).2 (isEnabledCompute s u).2.debounce) n c) a).timers = []
        rw [finishTimers_pushWithAutoPop, pushStore_timers]
        exact finishTimers_clearDebounce h2
  · intro s u id sd hs hen hid
    have hinv := reachable_inv hs
    have hc : ¬((isEnabledCompute s u).1 = false ∨ id = 0) := by
      intro h
      rcases h with h | h
      · rw [hen] at h
        exact Bool.noConfusion h
      · exact hid h
    rw [popActivity_main hc]
    have hPinv : Inv (popRemovePhase (isEnabledCompute s u).2 id sd) :=
      inv_popRemovePhase (inv_isEnabledCompute hinv u) id sd
    have hPtx : (popRemovePhase (isEnabledCompute s u).2 id sd).activeTransaction =
        s.activeTransaction := by
      rw [popRemovePhase_activeTransaction, isEnabledCompute_activeTransaction]
    have hPnext : (popRemovePhase (isEnabledCompute s u).2 id sd).nextTimerId =
        s.nextTimerId := by
      rw [popRemovePhase_nextTimerId, isEnabledCompute_nextTimerId]
    have hPopts : (popRemovePhase (isEnabledCompute s u).2 id sd).options = s.options := by
      rw [popRemovePhase_options, isEnabledCompute_options]
    have hPtimers : (popRemovePhase (isEnabledCompute s u).2 id sd).timers = s.timers := by
      rw [popRemovePhase_timers, isEnabledCompute_timers]
    by_cases hcond : (popRemovePhase (isEnabledCompute s u).2 id sd).activities.length = 0 ∧
        (popRemovePhase (isEnabledCompute s u).2 id sd).activeTransaction.isSome = true
    · rw [popReschedule_schedule hcond]
      have hnf : finishTimers ((popRemovePhase (isEnabledCompute s u).2 id sd).timers.filter
          (fun t => t.tid ≠ (popRemovePhase (isEnabledCompute s u).2 id sd).debounce)) =
          [] := finishTimers_clearDebounce hPinv
      have hsingle : finishTimers
          ((popRemovePhase (isEnabledCompute s u).2 id sd).timers.filter
            (fun t => t.tid ≠ (popRemovePhase (isEnabledCompute s u).2 id sd).debounce) ++
           [{ tid := (popRemovePhase (isEnabledCompute s u).2 id sd).nextTimerId,
              remaining := (popRemovePhase (isEnabledCompute s u).2 id sd).options.idleTimeout,
              task := TimerTask.finishIdle }]) =
          [{ tid := (popRemovePhase (isEnabledCompute s u).2 id sd).nextTimerId,
             remaining := (popRemovePhase (isEnabledCompute s u).2 id sd).options.idleTimeout,
             task := TimerTask.finishIdle }] := by
        unfold finishTimers at hnf ⊢
        rw [List.filter_append, hnf]
        simp
      constructor
      · intro t ht
        rw [hsingle] at ht
        rw [List.mem_singleton] at ht
        subst ht
        refine ⟨?_, by rw [hPnext], by rw [hPopts]⟩
        intro hmem
        have := hinv.tidBound _ hmem
        rw [hPnext] at this
        simp only at this
        omega
      · apply iff_of_true
        · rw [hsingle]
          intro hcon
          exact List.noConfusion hcon
        · constructor
          · show (popRemovePhase (isEnabledCompute s u).2 id sd).activities.length = 0
            exact hcond.1
          · rw [← hPtx]
            exact hcond.2
    · rw [popReschedule_noSchedule hcond]
      have hnf : finishTimers (clearTimeoutState (popRemovePhase (isEnabledCompute s u).2
          id sd) (popRemovePhase (isEnabledCompute s u).2 id sd).debounce).timers = [] :=
        finishTimers_clearDebounce hPinv
      constructor
      · intro t ht
        rw [hnf] at ht
        exact absurd ht (List.not_mem_nil t)
      · apply iff_of_false
        · intro hcon
          exact hcon hnf
        · intro hcon
          apply hcond
          refine ⟨hcon.1, ?_⟩
          rw [hPtx]
          exact hcon.2
  · intro s u n c a t ht htk
    exact finish_mem_pushActivity ht htk
  · intro s u n c t ht htk
    by_cases hc1 : (isEnabledCompute s u).1 = false
    · rw [startIdleTransaction_disabled hc1] at ht
      rw [← isEnabledCompute_timers s u]
      exact ht
    · by_cases hg : (finishIdleTransaction (isEnabledCompute s u).2).hasGetter = false
      · rw [startIdleTransaction_noGetter hc1 hg] at ht
        rw [← isEnabledCompute_timers s u, ← finishIdleTransaction_timers]
        exact ht
      · by_cases hh : (finishIdleTransaction (isEnabledCompute s u).2).hubOk = false
        · rw [startIdleTransaction_noHub hc1 hg hh] at ht
          rw [← isEnabledCompute_timers s u, ← finishIdleTransaction_timers]
          exact ht
        · rw [startIdleTransaction_main hc1 hg hh] at ht
          have ht2 : t ∈ (startBootstrap
              (startBind (finishIdleTransaction (isEnabledCompute s u).2)).2 u).timers := ht
          unfold startBootstrap at ht2
          rw [scheduleTimer_timers] at ht2
          rcases List.mem_append.mp ht2 with h3 | h3
          · have h4 := finish_mem_pushActivity h3 htk
            rw [← isEnabledCompute_timers s u, ← finishIdleTransaction_timers]
            exact h4
          · rw [List.mem_singleton] at h3
            subst h3
            exact absurd htk (by simp)
  · intro s
    exact finishIdleTransaction_timers s
  · intro s st
    exact setTransactionStatus_timers s st
  · intro s hid
    exact discardOnHidden_timers s hid
  · intro s d
    simp only [advanceTime, List.map_map]
    rfl

/-- C9 witness: the timer bookkeeping evaluated on concrete reachable
states: `sB4` holds exactly one pending finish timer; the push at `sA2`
leaves none; the bootstrap pop at `sA2` empties the registry with the
transaction active, so exactly then a finish timer is pending. -/
theorem C9_witness :
    (finishTimers sB4.timers).length ≤ 1 ∧
    finishTimers (pushActivity sA2 0 "xhr" none none).2.timers = [] ∧
    (finishTimers (popActivity sA2 0 1 none).timers ≠ [] ↔
      ((popActivity sA2 0 1 none).activities.length = 0 ∧
        sA2.activeTransaction.isSome = true)) :=
  ⟨C9_single_finish_timer.1 sB4 reachable_sB4,
    C9_single_finish_timer.2.1 sA2 0 "xhr" none none reachable_sA2 (by decide),
    (C9_single_finish_timer.2.2.1 sA2 0 1 none reachable_sA2 (by decide) (by decide)).2⟩

/-- C10 counterexample: after a background discard (state `sC4`: no active
transaction, both timers still pending), a redundant `popActivity` of the
already-popped id `1` — an operation invoked with the "no active transaction"
prerequisite absent — cancels the stale pending finish timer: the timers
component of the controller state is changed, so the operation is not a
no-op that leaves all controller state unchanged. -/
theorem C10_counterexample :
    Reachable sC4 ∧
    sC4.activeTransaction = none ∧
    (isEnabledCompute sC4 0).1 = true ∧
    sC4.timers = [⟨1, 500, TimerTask.bootstrapPop 1⟩, ⟨2, 500, TimerTask.finishIdle⟩] ∧
    (popActivity sC4 0 1 none).timers = [⟨1, 500, TimerTask.bootstrapPop 1⟩] ∧
    (popActivity sC4 0 1 none).timers ≠ sC4.timers :=
  ⟨reachable_sC4, by decide, by decide, by decide, by decide, by decide⟩

/-- C10 (amended): operations with an absent prerequisite return their no-op
value and leave the registry and active-transaction reference unchanged:
`pushActivity` is a complete no-op when disabled or without a transaction;
`popActivity` is a complete no-op when disabled or for id `0`; and
`startIdleTransaction` with a missing hub collaborator returns `none` with no
controller-state change (in reachable states no transaction can then be
active).  However `popActivity` of a nonzero id invoked while no transaction
is active still cancels a stale pending finish timer, so the timer state is
not always left unchanged. -/
theorem C10_noop_prerequisites :
    (∀ (s : TracingState) (u : ℚ) (n : String) (c : Option SpanContext) (a : Option ℤ),
      (isEnabledCompute s u).1 = false ∨ (isEnabledCompute s u).2.activeTransaction = none →
      (pushActivity s u n c a).1 = 0 ∧
      ctrlView (pushActivity s u n c a).2 = ctrlView s) ∧
    (∀ (s : TracingState) (u : ℚ) (id : Nat) (sd : Option (List (String × String))),
      (isEnabledCompute s u).1 = false ∨ id = 0 →
      ctrlView (popActivity s u id sd) = ctrlView s) ∧
    (∀ (s : TracingState) (u : ℚ) (id : Nat) (sd : Option (List (String × String))),
      Reachable s → s.activeTransaction = none → (isEnabledCompute s u).1 = true →
      id ≠ 0 →
      (popActivity s u id sd).activities = s.activities ∧
      (popActivity s u id sd).activeTransaction = none ∧
      (popActivity s u id sd).events = s.events ∧
      (popActivity s u id sd).timers = s.timers.filter (fun t => t.tid ≠ s.debounce)) ∧
    (∀ (s : TracingState) (u : ℚ) (n : String) (c : Option SpanContext),
      Reachable s → (s.hasGetter = false ∨ s.hubOk = false) →
      (startIdleTransaction s u n c).1 = none ∧
      ctrlView (startIdleTransaction s u n c).2 = ctrlView s) := by
  refine ⟨?_, ?_, ?_, ?_⟩
  · intro s u n c a hpre
    rcases hpre with h | h
    · rw [pushActivity_disabled h]
      exact ⟨rfl, isEnabledCompute_ctrlView s u⟩
    · by_cases hc1 : (isEnabledCompute s u).1 = false
      · rw [pushActivity_disabled hc1]
        exact ⟨rfl, isEnabledCompute_ctrlView s u⟩
      · rw [pushActivity_noTx hc1 h]
        exact ⟨rfl, isEnabledCompute_ctrlView s u⟩
  · intro s u id sd hpre
    rw [popActivity_noop hpre]
    exact isEnabledCompute_ctrlView s u
  · intro s u id sd hs htx hen hid
    have hinv := reachable_inv hs
    have hreg : s.activities = [] := by
      by_contra hne
      have := hinv.regTx hne
      rw [htx] at this
      exact Bool.noConfusion this
    have hc : ¬((isEnabledCompute s u).1 = false ∨ id = 0) := by
      intro h
      rcases h with h | h
      · rw [hen] at h
        exact Bool.noConfusion h
      · exact hid h
    have hlook2 : regLookup (isEnabledCompute s u).2.activities id = none := by
      rw [isEnabledCompute_activities, hreg]
      rfl
    rw [popActivity_main hc, popRemovePhase_absent hlook2]
    have hcond : ¬((isEnabledCompute s u).2.activities.length = 0 ∧
        (isEnabledCompute s u).2.activeTransaction.isSome = true) := by
      intro h
      have := h.2
      rw [isEnabledCompute_activeTransaction, htx] at this
      exact Bool.noConfusion this
    rw [popReschedule_noSchedule hcond]
    refine ⟨?_, ?_, ?_, ?_⟩
    · rw [clearTimeoutState_activities, isEnabledCompute_activities]
    · rw [clearTimeoutState_activeTransaction, isEnabledCompute_activeTransaction]
      exact htx
    · rw [clearTimeoutState_events, isEnabledCompute_events]
    · show (isEnabledCompute s u).2.timers.filter
        (fun t => t.tid ≠ (isEnabledCompute s u).2.debounce) = _
      rw [isEnabledCompute_timers, isEnabledCompute_debounce]
  · intro s u n c hs hpre
    have hinv := reachable_inv hs
    by_cases hc1 : (isEnabledCompute s u).1 = false
    · rw [startIdleTransaction_disabled hc1]
      exact ⟨rfl, isEnabledCompute_ctrlView s u⟩
    · have htx : s.activeTransaction = none := by
        by_contra hne
        have hsome : s.activeTransaction.isSome = true :=
          Option.isSome_iff_ne_none.mpr hne
        have := hinv.txHub hsome
        rcases hpre with h | h
        · rw [this.1] at h
          exact Bool.noConfusion h
        · rw [this.2] at h
          exact Bool.noConfusion h
      have hfin : finishIdleTransaction (isEnabledCompute s u).2 =
          (isEnabledCompute s u).2 := by
        apply finishIdleTransaction_none
        rw [isEnabledCompute_activeTransaction]
        exact htx
      rcases hpre with h | h
      · have hg : (finishIdleTransaction (isEnabledCompute s u).2).hasGetter = false := by
          rw [finishIdleTransaction_hasGetter, isEnabledCompute_hasGetter]
          exact h
        rw [startIdleTransaction_noGetter hc1 hg, hfin]
        exact ⟨rfl, isEnabledCompute_ctrlView s u⟩
      · by_cases hg2 : (finishIdleTransaction (isEnabledCompute s u).2).hasGetter = false
        · rw [startIdleTransaction_noGetter hc1 hg2, hfin]
          exact ⟨rfl, isEnabledCompute_ctrlView s u⟩
        · have hh : (finishIdleTransaction (isEnabledCompute s u).2).hubOk = false := by
            rw [finishIdleTransaction_hubOk, isEnabledCompute_hubOk]
            exact h
          rw [startIdleTransaction_noHub hc1 hg2 hh, hfin]
          exact ⟨rfl, isEnabledCompute_ctrlView s u⟩

/-- C10 witness: the pop-with-no-transaction case evaluated at the
post-discard state `sC4` (the stale finish timer with id `2` is removed). -/
theorem C10_witness :
    (popActivity sC4 0 1 none).activities = sC4.activities ∧
    (popActivity sC4 0 1 none).activeTransaction = none ∧
    (popActivity sC4 0 1 none).events = sC4.events ∧
    (popActivity sC4 0 1 none).timers =
      sC4.timers.filter (fun t => t.tid ≠ sC4.debounce) :=
  C10_noop_prerequisites.2.2.1 sC4 0 1 none reachable_sC4 (by decide) (by decide)
    (by decide)

/-- C8 witness: the amended bootstrap behavior evaluated at the reachable
state `sA1` (defaults, idle timeout 500 ms). -/
theorem C8_witness :
    regLookup (startIdleTransaction sA1 0 "pageload" none).2.activities
      sA1.currentIndex = some ⟨"idleTransactionStarted", none⟩ ∧
    ∃ t, t ∈ (startIdleTransaction sA1 0 "pageload" none).2.timers ∧
      t.task = TimerTask.bootstrapPop sA1.currentIndex ∧
      t.remaining =
        (if sA1.options.idleTimeout = 0 then 100 else sA1.options.idleTimeout) :=
  C8_bootstrap sA1 ⟨true, defaultOpts,
      Relation.ReflTransGen.tail Relation.ReflTransGen.refl (Step.setup sA0)⟩
    0 "pageload" none 1 (by decide)

end Tracing
